import Mathlib

/-!
Verification development for the gate22 MCP gateway / control plane.

The Python sources are shallowly embedded: Python `list` becomes `List`,
`dict`/database tables become explicit lists or lookup functions, UUIDs and
timestamps become `Nat`, `None`-able values become `Option`, and raised
exceptions become `Except`/`Option` results.  Each definition is translated
from the named function of the repository.
-/

set_option maxHeartbeats 1600000

namespace Gate22

/-- Ownership values of a connected account (`ConnectedAccountOwnership` in
`aci/common/enums.py`): `individual`, `shared`, `operational`. -/
inductive ConnectedAccountOwnership where
  | individual
  | shared
  | operational
deriving DecidableEq, Repr

/-! ## Bundle edit helper (`OrphanRecordsRemover._remove_configuration_id_from_bundle`)

`updated_config_ids = list(dict.fromkeys(mcp_server_bundle.mcp_server_configuration_ids))`
followed by `updated_config_ids.remove(mcp_server_configuration_id)` in
`aci/control_plane/services/orphan_records_remover.py`. -/

/-- Python `list(dict.fromkeys(l))`: keeps the first occurrence of each id,
preserving insertion order.  `seen` accumulates ids already emitted. -/
def dedupKeepFirstGo (seen : List Nat) : List Nat → List Nat
  | [] => []
  | x :: xs =>
      if x ∈ seen then dedupKeepFirstGo seen xs
      else x :: dedupKeepFirstGo (x :: seen) xs

/-- Python `list(dict.fromkeys(l))` with an empty accumulator. -/
def dedupKeepFirst (l : List Nat) : List Nat := dedupKeepFirstGo [] l

/-- Python `list.remove(x)`: drops the first occurrence of `x`; `none` models
the `ValueError` raised when `x` is absent from the list. -/
def removeFirst (x : Nat) : List Nat → Option (List Nat)
  | [] => none
  | y :: ys => if y = x then some ys else (removeFirst x ys).map (y :: ·)

/-- Python `ValueError`, raised by `list.remove` on a missing element. -/
inductive ValueError where
  | valueError
deriving DecidableEq, Repr

/-- Embeds `OrphanRecordsRemover._remove_configuration_id_from_bundle`: the
bundle's configuration-id list is de-duplicated keeping first occurrences and
then the given configuration id is removed with `list.remove`; the write-back
of the updated list to the bundle row is represented by returning it. -/
def removeConfigurationIdFromBundle (ids : List Nat) (cid : Nat) :
    Except ValueError (List Nat) :=
  match removeFirst cid (dedupKeepFirst ids) with
  | none => .error .valueError
  | some updated => .ok updated

theorem mem_dedupKeepFirstGo {x : Nat} :
    ∀ (l seen : List Nat), x ∈ dedupKeepFirstGo seen l ↔ x ∈ l ∧ x ∉ seen := by
  intro l
  induction l with
  | nil => intro seen; simp [dedupKeepFirstGo]
  | cons y ys ih =>
      intro seen
      by_cases hxy : x = y
      · subst hxy
        by_cases hy : x ∈ seen
        · simp [dedupKeepFirstGo, if_pos hy, ih, hy]
        · simp [dedupKeepFirstGo, if_neg hy, hy]
      · by_cases hy : y ∈ seen
        · simp [dedupKeepFirstGo, if_pos hy, ih, hxy]
        · simp [dedupKeepFirstGo, if_neg hy, ih, hxy, List.mem_cons]

theorem nodup_dedupKeepFirstGo :
    ∀ (l seen : List Nat), (dedupKeepFirstGo seen l).Nodup := by
  intro l
  induction l with
  | nil => intro seen; simp [dedupKeepFirstGo]
  | cons y ys ih =>
      intro seen
      by_cases hy : y ∈ seen
      · simpa [dedupKeepFirstGo, if_pos hy] using ih seen
      · simp only [dedupKeepFirstGo, if_neg hy, List.nodup_cons]
        refine ⟨fun hmem => ?_, ih (y :: seen)⟩
        exact ((mem_dedupKeepFirstGo ys (y :: seen)).mp hmem).2 (List.mem_cons_self y seen)

theorem nodup_dedupKeepFirst (l : List Nat) : (dedupKeepFirst l).Nodup :=
  nodup_dedupKeepFirstGo l []

theorem mem_dedupKeepFirst {x : Nat} (l : List Nat) :
    x ∈ dedupKeepFirst l ↔ x ∈ l := by
  simpa [dedupKeepFirst] using mem_dedupKeepFirstGo (x := x) l []

theorem removeFirst_eq_none {x : Nat} :
    ∀ l : List Nat, x ∉ l → removeFirst x l = none := by
  intro l
  induction l with
  | nil => intro _; rfl
  | cons y ys ih =>
      intro hx
      have hyx : ¬ y = x := fun h => hx (h ▸ List.mem_cons_self y ys)
      have hxys : x ∉ ys := fun h => hx (List.mem_cons_of_mem _ h)
      simp [removeFirst, hyx, ih hxys]

theorem removeFirst_of_nodup {x : Nat} :
    ∀ l : List Nat, l.Nodup → x ∈ l → removeFirst x l = some (l.filter (· ≠ x)) := by
  intro l
  induction l with
  | nil => intro _ h; cases h
  | cons y ys ih =>
      intro hnd hmem
      rcases List.nodup_cons.mp hnd with ⟨hy, hnd'⟩
      by_cases hxy : y = x
      · subst hxy
        have hself : ys.filter (· ≠ y) = ys := by
          refine List.filter_eq_self.mpr (fun a ha => ?_)
          simp only [ne_eq, decide_eq_true_eq]
          exact fun h => hy (h ▸ ha)
        have hcons : (y :: ys).filter (· ≠ y) = ys.filter (· ≠ y) := by
          simp [List.filter_cons]
        rw [hcons, hself]
        simp [removeFirst]
      · have hxys : x ∈ ys := by
          rcases List.mem_cons.mp hmem with h | h
          · exact absurd h.symm hxy
          · exact h
        have hkeep : (decide (y ≠ x)) = true := by simp [hxy]
        simp [removeFirst, hxy, ih hnd' hxys, List.filter_cons, hkeep]

theorem dedupKeepFirstGo_congr :
    ∀ (l seen seen' : List Nat), (∀ a, a ∈ seen ↔ a ∈ seen') →
      dedupKeepFirstGo seen l = dedupKeepFirstGo seen' l := by
  intro l
  induction l with
  | nil => intro seen seen' _; rfl
  | cons y ys ih =>
      intro seen seen' hiff
      by_cases hy : y ∈ seen
      · have hy' : y ∈ seen' := (hiff y).mp hy
        simp only [dedupKeepFirstGo, if_pos hy, if_pos hy']
        exact ih seen seen' hiff
      · have hy' : y ∉ seen' := fun h => hy ((hiff y).mpr h)
        simp only [dedupKeepFirstGo, if_neg hy, if_neg hy']
        refine congrArg (y :: ·) (ih _ _ ?_)
        intro a
        simp only [List.mem_cons]
        exact or_congr Iff.rfl (hiff a)

theorem filter_dedupKeepFirstGo_cons (c : Nat) :
    ∀ (l seen : List Nat),
      (dedupKeepFirstGo (c :: seen) l).filter (· ≠ c) =
        (dedupKeepFirstGo seen l).filter (· ≠ c) := by
  intro l
  induction l with
  | nil => intro seen; rfl
  | cons y ys ih =>
      intro seen
      by_cases hyc : y = c
      · subst hyc
        have h1 : dedupKeepFirstGo (y :: seen) (y :: ys) =
            dedupKeepFirstGo (y :: seen) ys := by
          simp [dedupKeepFirstGo]
        by_cases hy : y ∈ seen
        · have h2 : dedupKeepFirstGo seen (y :: ys) = dedupKeepFirstGo seen ys := by
            simp [dedupKeepFirstGo, hy]
          rw [h1, h2]
          exact ih seen
        · have h2 : dedupKeepFirstGo seen (y :: ys) =
              y :: dedupKeepFirstGo (y :: seen) ys := by
            simp [dedupKeepFirstGo, hy]
          have h3 : (y :: dedupKeepFirstGo (y :: seen) ys).filter (· ≠ y) =
              (dedupKeepFirstGo (y :: seen) ys).filter (· ≠ y) := by
            simp [List.filter_cons]
          rw [h1, h2, h3]
      · by_cases hy : y ∈ seen
        · have hy' : y ∈ c :: seen := List.mem_cons_of_mem _ hy
          have h1 : dedupKeepFirstGo (c :: seen) (y :: ys) =
              dedupKeepFirstGo (c :: seen) ys := by
            simp [dedupKeepFirstGo, hy']
          have h2 : dedupKeepFirstGo seen (y :: ys) = dedupKeepFirstGo seen ys := by
            simp [dedupKeepFirstGo, hy]
          rw [h1, h2]
          exact ih seen
        · have hy' : y ∉ c :: seen := by
            intro h
            rcases List.mem_cons.mp h with h | h
            · exact hyc h
            · exact hy h
          have h1 : dedupKeepFirstGo (c :: seen) (y :: ys) =
              y :: dedupKeepFirstGo (y :: c :: seen) ys := by
            simp [dedupKeepFirstGo, hy']
          have h2 : dedupKeepFirstGo seen (y :: ys) =
              y :: dedupKeepFirstGo (y :: seen) ys := by
            simp [dedupKeepFirstGo, hy]
          have h3 : ∀ L : List Nat, (y :: L).filter (· ≠ c) = y :: L.filter (· ≠ c) := by
            intro L
            simp [List.filter_cons, hyc]
          have hswap : dedupKeepFirstGo (y :: c :: seen) ys =
              dedupKeepFirstGo (c :: y :: seen) ys := by
            refine dedupKeepFirstGo_congr ys _ _ (fun a => ?_)
            simp only [List.mem_cons]
            tauto
          rw [h1, h2, h3, h3, hswap]
          exact congrArg (y :: ·) (ih (y :: seen))

theorem filter_dedupKeepFirstGo (c : Nat) :
    ∀ (l seen : List Nat),
      (dedupKeepFirstGo seen l).filter (· ≠ c) =
        dedupKeepFirstGo seen (l.filter (· ≠ c)) := by
  intro l
  induction l with
  | nil => intro seen; rfl
  | cons y ys ih =>
      intro seen
      by_cases hyc : y = c
      · subst hyc
        have hfc : (y :: ys).filter (· ≠ y) = ys.filter (· ≠ y) := by
          simp [List.filter_cons]
        by_cases hy : y ∈ seen
        · have h1 : dedupKeepFirstGo seen (y :: ys) = dedupKeepFirstGo seen ys := by
            simp [dedupKeepFirstGo, hy]
          rw [h1, hfc]
          exact ih seen
        · have h1 : dedupKeepFirstGo seen (y :: ys) =
              y :: dedupKeepFirstGo (y :: seen) ys := by
            simp [dedupKeepFirstGo, hy]
          have h3 : (y :: dedupKeepFirstGo (y :: seen) ys).filter (· ≠ y) =
              (dedupKeepFirstGo (y :: seen) ys).filter (· ≠ y) := by
            simp [List.filter_cons]
          rw [h1, hfc, h3, filter_dedupKeepFirstGo_cons y ys seen]
          exact ih seen
      · have hfc : (y :: ys).filter (· ≠ c) = y :: ys.filter (· ≠ c) := by
          simp [List.filter_cons, hyc]
        by_cases hy : y ∈ seen
        · have h1 : dedupKeepFirstGo seen (y :: ys) = dedupKeepFirstGo seen ys := by
            simp [dedupKeepFirstGo, hy]
          have h2 : dedupKeepFirstGo seen (y :: ys.filter (· ≠ c)) =
              dedupKeepFirstGo seen (ys.filter (· ≠ c)) := by
            simp [dedupKeepFirstGo, hy]
          rw [h1, hfc, h2]
          exact ih seen
        · have h1 : dedupKeepFirstGo seen (y :: ys) =
              y :: dedupKeepFirstGo (y :: seen) ys := by
            simp [dedupKeepFirstGo, hy]
          have h2 : dedupKeepFirstGo seen (y :: ys.filter (· ≠ c)) =
              y :: dedupKeepFirstGo (y :: seen) (ys.filter (· ≠ c)) := by
            simp [dedupKeepFirstGo, hy]
          have h3 : (y :: dedupKeepFirstGo (y :: seen) ys).filter (· ≠ c) =
              y :: (dedupKeepFirstGo (y :: seen) ys).filter (· ≠ c) := by
            simp [List.filter_cons, hyc]
          rw [h1, hfc, h2, h3]
          exact congrArg (y :: ·) (ih (y :: seen))

theorem filter_dedupKeepFirst (c : Nat) (l : List Nat) :
    (dedupKeepFirst l).filter (· ≠ c) = dedupKeepFirst (l.filter (· ≠ c)) :=
  filter_dedupKeepFirstGo c l []

/-- C9 counterexample: removing a configuration id from a bundle is NOT
idempotent.  On the bundle `[5, 7]`, removing `5` once succeeds and yields
`[7]`; applying the removal a second time (the bundle no longer contains `5`)
raises `ValueError` (Python `list.remove`) instead of succeeding with the list
unchanged, contradicting the claim at this concrete input. -/
theorem bundle_removal_not_idempotent_counterexample :
    removeConfigurationIdFromBundle [5, 7] 5 = .ok [7] ∧
      removeConfigurationIdFromBundle [7] 5 = .error .valueError := by
  constructor <;> rfl

/-- C9 (amended): the bundle-edit helper de-duplicates the configuration-id
list keeping first occurrences (hence preserving insertion order); when the
given id occurs in the list the helper succeeds and returns exactly the
de-duplicated list of the remaining ids, which contains no duplicates and no
occurrence of the removed id; when the id does not occur the helper raises
`ValueError` (so removal is not idempotent). -/
theorem bundle_removal_amended (ids : List Nat) (cid : Nat) :
    (cid ∈ ids →
      removeConfigurationIdFromBundle ids cid =
        .ok (dedupKeepFirst (ids.filter (· ≠ cid))) ∧
      (dedupKeepFirst (ids.filter (· ≠ cid))).Nodup ∧
      cid ∉ dedupKeepFirst (ids.filter (· ≠ cid))) ∧
    (cid ∉ ids →
      removeConfigurationIdFromBundle ids cid = .error .valueError) := by
  constructor
  · intro hmem
    have hdmem : cid ∈ dedupKeepFirst ids := (mem_dedupKeepFirst ids).mpr hmem
    have hnd : (dedupKeepFirst ids).Nodup := nodup_dedupKeepFirst ids
    have hrem := removeFirst_of_nodup (dedupKeepFirst ids) hnd hdmem
    refine ⟨?_, nodup_dedupKeepFirst _, ?_⟩
    · simp only [removeConfigurationIdFromBundle, hrem, filter_dedupKeepFirst]
    · intro hbad
      have : cid ∈ ids.filter (· ≠ cid) := (mem_dedupKeepFirst _).mp hbad
      have := List.of_mem_filter this
      simp at this
  · intro hnmem
    have hdn : cid ∉ dedupKeepFirst ids := fun h => hnmem ((mem_dedupKeepFirst ids).mp h)
    simp only [removeConfigurationIdFromBundle, removeFirst_eq_none _ hdn]

/-- C9 amended witness: concrete run of the amended theorem on the bundle
`[5, 7, 5]` (which contains a duplicate) removing `5`, and on the bundle `[7]`
removing the absent id `5`. -/
theorem bundle_removal_amended_witness :
    removeConfigurationIdFromBundle [5, 7, 5] 5 = .ok (dedupKeepFirst [7]) ∧
      removeConfigurationIdFromBundle [7] 5 = .error .valueError :=
  ⟨((bundle_removal_amended [5, 7, 5] 5).1 (by decide)).1,
    (bundle_removal_amended [7] 5).2 (by decide)⟩

/-! ## Tool name sanitizer (`sanitize_canonical_tool_name` in `aci/common/mcp_tool_utils.py`)

Python strings are embedded as lists of Unicode code points (`List Nat`):
`95` is `_`, `65`..`90` are `A`..`Z`, `48`..`57` are `0`..`9`, `97`..`122`
are `a`..`z`. -/

/-- Python `str.upper()` on one code point, restricted to the ASCII case
mapping: `a`..`z` map to `A`..`Z`, other code points are unchanged. -/
def pyUpperChar (c : Nat) : Nat := if 97 ≤ c ∧ c ≤ 122 then c - 32 else c

/-- Character class `[A-Z0-9_]` complementing the sanitizer's regex
`[^A-Z0-9_]`. -/
def isKeepChar (c : Nat) : Bool := (65 ≤ c && c ≤ 90) || (48 ≤ c && c ≤ 57) || c == 95

/-- Python `re.sub(r"[^A-Z0-9_]", "_", s)`. -/
def replaceNonKeep (l : List Nat) : List Nat :=
  l.map (fun c => if isKeepChar c then c else 95)

/-- Python `re.sub(r"_+", "_", s)`: collapse each run of underscores to a
single underscore.  `prevU` records whether the character emitted last belongs
to a still-open run of underscores. -/
def collapseGo (prevU : Bool) : List Nat → List Nat
  | [] => []
  | c :: cs =>
      if c = 95 then
        if prevU then collapseGo true cs else 95 :: collapseGo true cs
      else c :: collapseGo false cs

/-- Python `re.sub(r"_+", "_", s)` starting outside an underscore run. -/
def collapseUnderscores (l : List Nat) : List Nat := collapseGo false l

/-- Python `str.strip("_")`: drop leading and trailing underscores. -/
def stripUnderscores (l : List Nat) : List Nat :=
  (((l.dropWhile (· == 95)).reverse.dropWhile (· == 95))).reverse

/-- Embeds `sanitize_canonical_tool_name`: uppercase, replace `[^A-Z0-9_]`
with `_`, collapse runs of `_`, strip leading/trailing `_`; `none` models the
`MCPToolSanitizationError` raised when the result is empty. -/
def sanitize_canonical_tool_name (l : List Nat) : Option (List Nat) :=
  let sanitized := stripUnderscores (collapseUnderscores (replaceNonKeep (l.map pyUpperChar)))
  if sanitized = [] then none else some sanitized

/-- Character class `[A-Z0-9]` of the canonical-name regex. -/
def isUpperAlnum (c : Nat) : Bool := (65 ≤ c && c ≤ 90) || (48 ≤ c && c ≤ 57)

/-- Matcher for the continuation of `^[A-Z0-9]+(_[A-Z0-9]+)*$` after at least
one `[A-Z0-9]` character has been consumed: either the string ends, or an
underscore followed by at least one `[A-Z0-9]` starts a new group, or the
current group continues. -/
def canonicalNameTail : List Nat → Bool
  | [] => true
  | c :: cs =>
      if c = 95 then
        match cs with
        | [] => false
        | d :: ds => isUpperAlnum d && canonicalNameTail ds
      else isUpperAlnum c && canonicalNameTail cs

/-- Decides the regex `^[A-Z0-9]+(_[A-Z0-9]+)*$` from the specification. -/
def matchesCanonicalNameRegex : List Nat → Bool
  | [] => false
  | c :: cs => isUpperAlnum c && canonicalNameTail cs

/-- Adjacency relation forbidding two consecutive underscores. -/
def NoDoubleUnderscore (a b : Nat) : Prop := ¬(a = 95 ∧ b = 95)

theorem isKeepChar_95 : isKeepChar 95 = true := by decide

theorem isUpperAlnum_of_keep {c : Nat} (hk : isKeepChar c = true) (hne : ¬c = 95) :
    isUpperAlnum c = true := by
  simp only [isKeepChar, Bool.or_eq_true, Bool.and_eq_true, decide_eq_true_eq,
    Nat.beq_eq_true_eq] at hk
  simp only [isUpperAlnum, Bool.or_eq_true, Bool.and_eq_true, decide_eq_true_eq]
  rcases hk with h | h
  · exact h
  · exact absurd h hne

theorem pyUpperChar_of_keep {c : Nat} (hk : isKeepChar c = true) : pyUpperChar c = c := by
  simp only [isKeepChar, Bool.or_eq_true, Bool.and_eq_true, decide_eq_true_eq,
    Nat.beq_eq_true_eq] at hk
  simp only [pyUpperChar, ite_eq_right_iff]
  intro h
  omega

theorem mem_replaceNonKeep {x : Nat} {l : List Nat} (hx : x ∈ replaceNonKeep l) :
    isKeepChar x = true := by
  simp only [replaceNonKeep, List.mem_map] at hx
  obtain ⟨c, _, hc⟩ := hx
  by_cases h : isKeepChar c = true
  · rw [← hc, if_pos h]; exact h
  · rw [← hc, if_neg h]; exact isKeepChar_95

theorem mem_collapseGo {x : Nat} :
    ∀ (l : List Nat) (b : Bool), x ∈ collapseGo b l → x ∈ l ∨ x = 95 := by
  intro l
  induction l with
  | nil => intro b h; simp [collapseGo] at h
  | cons c cs ih =>
      intro b h
      by_cases hc : c = 95
      · subst hc
        simp only [collapseGo, if_pos rfl] at h
        cases b with
        | true =>
            rcases ih true h with h' | h'
            · exact Or.inl (List.mem_cons_of_mem _ h')
            · exact Or.inr h'
        | false =>
            rcases List.mem_cons.mp h with h' | h'
            · exact Or.inr h'
            · rcases ih true h' with h'' | h''
              · exact Or.inl (List.mem_cons_of_mem _ h'')
              · exact Or.inr h''
      · simp only [collapseGo, if_neg hc] at h
        rcases List.mem_cons.mp h with h' | h'
        · exact Or.inl (h' ▸ List.mem_cons_self c cs)
        · rcases ih false h' with h'' | h''
          · exact Or.inl (List.mem_cons_of_mem _ h'')
          · exact Or.inr h''

theorem collapseGo_true_head :
    ∀ (l : List Nat) (x : Nat), (collapseGo true l).head? = some x → ¬x = 95 := by
  intro l
  induction l with
  | nil => intro x h; simp [collapseGo] at h
  | cons c cs ih =>
      intro x h
      by_cases hc : c = 95
      · subst hc
        simp only [collapseGo, if_pos rfl] at h
        exact ih x h
      · simp only [collapseGo, if_neg hc, List.head?_cons, Option.some.injEq] at h
        exact h ▸ hc

theorem collapseGo_chain :
    ∀ (l : List Nat) (b : Bool), List.Chain' NoDoubleUnderscore (collapseGo b l) := by
  intro l
  induction l with
  | nil => intro b; simp [collapseGo]
  | cons c cs ih =>
      intro b
      by_cases hc : c = 95
      · subst hc
        cases b with
        | true => simpa [collapseGo] using ih true
        | false =>
            have hred : collapseGo false (95 :: cs) = 95 :: collapseGo true cs := by
              simp [collapseGo]
            rw [hred, List.chain'_cons']
            refine ⟨fun y hy => ?_, ih true⟩
            intro ⟨_, hy95⟩
            exact collapseGo_true_head cs y hy hy95
      · simp only [collapseGo, if_neg hc]
        rw [List.chain'_cons']
        refine ⟨fun y _ => ?_, ih false⟩
        intro ⟨hc95, _⟩
        exact hc hc95

theorem collapseGo_id :
    ∀ l : List Nat, List.Chain' NoDoubleUnderscore l →
      collapseGo false l = l ∧ (l.head? ≠ some 95 → collapseGo true l = l) := by
  intro l
  induction l with
  | nil => intro _; exact ⟨rfl, fun _ => rfl⟩
  | cons c cs ih =>
      intro hch
      rw [List.chain'_cons'] at hch
      obtain ⟨hhead, hch'⟩ := hch
      obtain ⟨ihf, iht⟩ := ih hch'
      by_cases hc : c = 95
      · subst hc
        have hcs : cs.head? ≠ some 95 := by
          intro h
          exact (hhead 95 h) ⟨rfl, rfl⟩
        constructor
        · have hred : collapseGo false (95 :: cs) = 95 :: collapseGo true cs := by
            simp [collapseGo]
          rw [hred, iht hcs]
        · intro h
          simp at h
      · constructor
        · simp only [collapseGo, if_neg hc, ihf]
        · intro _
          simp only [collapseGo, if_neg hc, ihf]

theorem dropWhile95_suffix (l : List Nat) : ∃ t, t ++ l.dropWhile (· == 95) = l := by
  induction l with
  | nil => exact ⟨[], rfl⟩
  | cons c cs ih =>
      by_cases hc : (c == 95) = true
      · obtain ⟨t, ht⟩ := ih
        refine ⟨c :: t, ?_⟩
        simp [List.dropWhile_cons, hc, ht]
      · refine ⟨[], ?_⟩
        simp [List.dropWhile_cons, hc]

theorem head?_dropWhile95 :
    ∀ (l : List Nat) (x : Nat), (l.dropWhile (· == 95)).head? = some x → ¬x = 95 := by
  intro l
  induction l with
  | nil => intro x h; simp at h
  | cons c cs ih =>
      intro x h
      by_cases hc : (c == 95) = true
      · rw [List.dropWhile_cons, if_pos hc] at h
        exact ih x h
      · rw [List.dropWhile_cons, if_neg hc] at h
        simp only [List.head?_cons, Option.some.injEq] at h
        subst h
        simpa using hc

theorem dropWhile95_id {l : List Nat} (h : l.head? ≠ some 95) :
    l.dropWhile (· == 95) = l := by
  cases l with
  | nil => rfl
  | cons c cs =>
      have hc : ¬((c == 95) = true) := by
        simp only [List.head?_cons, ne_eq, Option.some.injEq] at h
        simpa using h
      rw [List.dropWhile_cons, if_neg hc]

theorem stripUnderscores_id {l : List Nat} (hh : l.head? ≠ some 95)
    (hl : ∀ x, l.getLast? = some x → ¬x = 95) : stripUnderscores l = l := by
  have h1 : l.dropWhile (· == 95) = l := dropWhile95_id hh
  have h2 : l.reverse.dropWhile (· == 95) = l.reverse := by
    refine dropWhile95_id ?_
    rw [List.head?_reverse]
    intro h
    exact hl 95 h rfl
  simp [stripUnderscores, h1, h2]

theorem canonicalNameTail_of_flags :
    ∀ (n : Nat) (l : List Nat), l.length ≤ n →
      (∀ c ∈ l, isKeepChar c = true) →
      List.Chain' NoDoubleUnderscore l →
      (∀ x, l.getLast? = some x → ¬x = 95) →
      canonicalNameTail l = true := by
  intro n
  induction n with
  | zero =>
      intro l hlen _ _ _
      have hl : l = [] := List.length_eq_zero.mp (Nat.le_zero.mp hlen)
      subst hl; rfl
  | succ n ih =>
      intro l hlen hkeep hch hlast
      cases l with
      | nil => rfl
      | cons c cs =>
          by_cases hc : c = 95
          · subst hc
            cases cs with
            | nil => exact absurd rfl (hlast 95 (by simp))
            | cons d ds =>
                have hred : canonicalNameTail (95 :: d :: ds) =
                    (isUpperAlnum d && canonicalNameTail ds) := by
                  simp [canonicalNameTail]
                rw [hred, Bool.and_eq_true]
                rw [List.chain'_cons'] at hch
                constructor
                · have hd95 : ¬d = 95 := by
                    intro h
                    exact hch.1 d rfl ⟨rfl, h⟩
                  exact isUpperAlnum_of_keep (hkeep d (by simp)) hd95
                · have hdslen : ds.length ≤ n := by
                    simp only [List.length_cons] at hlen
                    omega
                  refine ih ds hdslen (fun x hx => hkeep x (by simp [hx])) ?_ ?_
                  · exact (List.chain'_cons'.mp hch.2).2
                  · intro x hx
                    apply hlast x
                    cases ds with
                    | nil => simp at hx
                    | cons e es =>
                        rw [List.getLast?_cons_cons, List.getLast?_cons_cons]
                        exact hx
          · have hred : canonicalNameTail (c :: cs) =
                (isUpperAlnum c && canonicalNameTail cs) := by
              rw [canonicalNameTail.eq_def]
              simp [hc]
            rw [hred, Bool.and_eq_true]
            constructor
            · exact isUpperAlnum_of_keep (hkeep c (by simp)) hc
            · have hcslen : cs.length ≤ n := by
                simp only [List.length_cons] at hlen
                omega
              refine ih cs hcslen (fun x hx => hkeep x (by simp [hx]))
                (List.chain'_cons'.mp hch).2 ?_
              intro x hx
              apply hlast x
              cases cs with
              | nil => simp at hx
              | cons e es =>
                  rw [List.getLast?_cons_cons]
                  exact hx

theorem matchesCanonicalNameRegex_of_flags (l : List Nat) (hne : l ≠ [])
    (hkeep : ∀ c ∈ l, isKeepChar c = true)
    (hch : List.Chain' NoDoubleUnderscore l)
    (hh : l.head? ≠ some 95)
    (hl : ∀ x, l.getLast? = some x → ¬x = 95) :
    matchesCanonicalNameRegex l = true := by
  cases l with
  | nil => exact absurd rfl hne
  | cons c cs =>
      have hc : ¬c = 95 := by
        simp only [List.head?_cons, ne_eq, Option.some.injEq] at hh
        exact hh
      have hred : matchesCanonicalNameRegex (c :: cs) =
          (isUpperAlnum c && canonicalNameTail cs) := rfl
      rw [hred, Bool.and_eq_true]
      constructor
      · exact isUpperAlnum_of_keep (hkeep c (by simp)) hc
      · refine canonicalNameTail_of_flags cs.length cs le_rfl
          (fun x hx => hkeep x (by simp [hx])) (List.chain'_cons'.mp hch).2 ?_
        intro x hx
        apply hl x
        cases cs with
        | nil => simp at hx
        | cons e es =>
            rw [List.getLast?_cons_cons]
            exact hx

theorem map_pyUpperChar_id {l : List Nat} (h : ∀ c ∈ l, isKeepChar c = true) :
    l.map pyUpperChar = l := by
  induction l with
  | nil => rfl
  | cons c cs ih =>
      simp only [List.map_cons]
      rw [pyUpperChar_of_keep (h c (by simp)), ih (fun x hx => h x (by simp [hx]))]

theorem replaceNonKeep_id {l : List Nat} (h : ∀ c ∈ l, isKeepChar c = true) :
    replaceNonKeep l = l := by
  induction l with
  | nil => rfl
  | cons c cs ih =>
      simp only [replaceNonKeep, List.map_cons] at ih ⊢
      rw [if_pos (h c (by simp)), ih (fun x hx => h x (by simp [hx]))]

/-- C7: whenever `sanitize_canonical_tool_name` succeeds, its result matches
the regex `^[A-Z0-9]+(_[A-Z0-9]+)*$` (uppercase alphanumeric groups separated
by single underscores, no leading or trailing underscore), and sanitizing the
result again returns it unchanged (idempotence). -/
theorem sanitize_canonical_tool_name_regex_and_idempotent (l t : List Nat)
    (h : sanitize_canonical_tool_name l = some t) :
    matchesCanonicalNameRegex t = true ∧ sanitize_canonical_tool_name t = some t := by
  by_cases hs :
      stripUnderscores (collapseUnderscores (replaceNonKeep (l.map pyUpperChar))) = []
  · rw [sanitize_canonical_tool_name, if_pos hs] at h
    cases h
  · rw [sanitize_canonical_tool_name, if_neg hs] at h
    have ht : t = stripUnderscores (collapseUnderscores (replaceNonKeep (l.map pyUpperChar))) :=
      (Option.some.inj h).symm
    set X := collapseUnderscores (replaceNonKeep (l.map pyUpperChar)) with hX
    have keepX : ∀ c ∈ X, isKeepChar c = true := by
      intro c hc
      rcases mem_collapseGo (replaceNonKeep (l.map pyUpperChar)) false hc with h' | h'
      · exact mem_replaceNonKeep h'
      · exact h' ▸ isKeepChar_95
    have chainX : List.Chain' NoDoubleUnderscore X := collapseGo_chain _ false
    obtain ⟨u, hu⟩ := dropWhile95_suffix X
    set m := X.dropWhile (· == 95) with hm
    have chainm : List.Chain' NoDoubleUnderscore m := by
      have := List.chain'_append.mp (hu ▸ chainX)
      exact this.2.1
    have keepm : ∀ c ∈ m, isKeepChar c = true := by
      intro c hc
      exact keepX c (hu ▸ List.mem_append_right u hc)
    obtain ⟨v, hv⟩ := dropWhile95_suffix m.reverse
    set w := m.reverse.dropWhile (· == 95) with hw
    have htw : t = w.reverse := ht
    have hmtv : m = t ++ v.reverse := by
      have h5 := congrArg List.reverse hv
      rw [List.reverse_append, List.reverse_reverse] at h5
      rw [htw]
      exact h5.symm
    have hne' : t ≠ [] := by
      intro h0
      exact hs (by rw [← ht, h0])
    have keept : ∀ c ∈ t, isKeepChar c = true := by
      intro c hc
      exact keepm c (hmtv ▸ List.mem_append_left v.reverse hc)
    have chaint : List.Chain' NoDoubleUnderscore t := by
      have := List.chain'_append.mp (hmtv ▸ chainm)
      exact this.1
    have headt : t.head? ≠ some 95 := by
      cases htcase : t with
      | nil => simp
      | cons a t' =>
          simp only [List.head?_cons, ne_eq, Option.some.injEq]
          have hmhead : m.head? = some a := by
            rw [hmtv, htcase]
            rfl
          exact head?_dropWhile95 X a hmhead
    have lastt : ∀ x, t.getLast? = some x → ¬x = 95 := by
      intro x hx
      rw [htw, List.getLast?_reverse] at hx
      exact head?_dropWhile95 m.reverse x hx
    constructor
    · exact matchesCanonicalNameRegex_of_flags t hne' keept chaint headt lastt
    · have h1 : t.map pyUpperChar = t := map_pyUpperChar_id keept
      have h2 : replaceNonKeep t = t := replaceNonKeep_id keept
      have h3 : collapseUnderscores t = t := (collapseGo_id t chaint).1
      have h4 : stripUnderscores t = t := stripUnderscores_id headt lastt
      rw [sanitize_canonical_tool_name, h1, h2]
      rw [show collapseUnderscores t = t from h3, h4, if_neg hne']

/-- C7 witness: sanitizing the concrete name `"git hub"` (code points) yields
`"GIT_HUB"`, which matches the canonical regex and is a fixed point of the
sanitizer. -/
theorem sanitize_canonical_tool_name_witness :
    sanitize_canonical_tool_name [103, 105, 116, 32, 104, 117, 98] =
        some [71, 73, 84, 95, 72, 85, 66] ∧
      matchesCanonicalNameRegex [71, 73, 84, 95, 72, 85, 66] = true ∧
      sanitize_canonical_tool_name [71, 73, 84, 95, 72, 85, 66] =
        some [71, 73, 84, 95, 72, 85, 66] := by
  have h := sanitize_canonical_tool_name_regex_and_idempotent
    [103, 105, 116, 32, 104, 117, 98] [71, 73, 84, 95, 72, 85, 66] (by decide)
  exact ⟨by decide, h.1, h.2⟩

/-! ## Stripe subscription event handler
(`handle_subscription_event` in
`aci/control_plane/services/subscription/stripe_event_handler.py` with the
crud helpers of `aci/common/db/crud/subscriptions.py`).

The subscription object pulled from Stripe is embedded with the fields the
handler reads; `datetime.fromtimestamp` is represented as the identity on the
embedded timestamp. -/

/-- Stripe `SubscriptionItem` fields read by the handler. -/
structure SubscriptionItem where
  id : Nat
  priceId : String
  quantity : Option Nat
  currentPeriodStart : Option Nat
  currentPeriodEnd : Option Nat
deriving DecidableEq, Repr

/-- Stripe `Subscription` fields read by the handler; `customer` is embedded
as the customer id string (the code accepts either the id or the expanded
object and reduces both to the id). -/
structure StripeSubscription where
  id : String
  customer : String
  status : String
  items : List SubscriptionItem
  cancelAtPeriodEnd : Bool
  startDate : Option Nat
deriving DecidableEq, Repr

/-- Row of `SubscriptionPlan` with the fields used by the subscription event
handler and the change-subscription route. -/
structure SubscriptionPlan where
  planCode : String
  stripePriceId : Option String
  isPublic : Bool
  isFree : Bool
  minSeatsForSubscription : Option Nat
  maxSeatsForSubscription : Option Nat
deriving DecidableEq, Repr

/-- Row of `OrganizationSubscription` with the fields written by
`OrganizationSubscriptionUpsert`. -/
structure OrganizationSubscriptionRow where
  organizationId : Nat
  stripeSubscriptionId : String
  stripeSubscriptionItemId : Nat
  planCode : String
  seatCount : Nat
  stripeSubscriptionStatus : String
  currentPeriodStart : Option Nat
  currentPeriodEnd : Option Nat
  cancelAtPeriodEnd : Bool
  subscriptionStartDate : Option Nat
deriving DecidableEq, Repr

/-- Database state visible to the Stripe event handler. -/
structure SubscriptionDB where
  organizationsByStripeCustomerId : List (String × Nat)
  plans : List SubscriptionPlan
  organizationSubscriptions : List OrganizationSubscriptionRow
deriving DecidableEq, Repr

/-- Detail payload of a `StripeOperationError`. -/
inductive StripeErrorDetail where
  | unexpectedItemCount (got : Nat)
  | planNotFound (stripePriceId : String)
  | unsupportedStatus (status : String)
deriving DecidableEq, Repr

/-- Errors raised by `handle_subscription_event`. -/
inductive SubscriptionEventError where
  | organizationNotFound
  | stripeOperationError (detail : StripeErrorDetail)
deriving DecidableEq, Repr

/-- Embeds `crud.subscriptions.get_organization_by_stripe_customer_id`. -/
def get_organization_by_stripe_customer_id (db : SubscriptionDB)
    (stripeCustomerId : String) : Option Nat :=
  (db.organizationsByStripeCustomerId.find? (fun p => p.1 = stripeCustomerId)).map (·.2)

/-- Embeds `crud.subscriptions.get_plan_by_stripe_price_id` (an SQL equality
against a nullable column: a plan with a NULL `stripe_price_id` never
matches). -/
def get_plan_by_stripe_price_id (db : SubscriptionDB)
    (stripePriceId : String) : Option SubscriptionPlan :=
  db.plans.find? (fun p => p.stripePriceId = some stripePriceId)

/-- Embeds `crud.subscriptions.upsert_organization_subscription`: updates the
organization's existing subscription row in place or appends a new one. -/
def upsert_organization_subscription (rows : List OrganizationSubscriptionRow)
    (row : OrganizationSubscriptionRow) : List OrganizationSubscriptionRow :=
  if rows.any (fun r => r.organizationId = row.organizationId) then
    rows.map (fun r => if r.organizationId = row.organizationId then row else r)
  else rows ++ [row]

/-- Modelled from the spec: `remove_customer_subscription` calls
`crud.subscriptions.get_organization_subscription_by_stripe_subscription_id`,
which is absent from the source snapshot (the snapshot's crud module only has
a delete keyed by organization id); the spec says `canceled` and
`incomplete_expired` delete the organization's subscription row, and the call
site keys the lookup and delete by the Stripe subscription id. -/
def get_organization_subscription_by_stripe_subscription_id
    (rows : List OrganizationSubscriptionRow) (stripeSubscriptionId : String) :
    Option OrganizationSubscriptionRow :=
  rows.find? (fun r => r.stripeSubscriptionId = stripeSubscriptionId)

/-- Modelled from the spec: deletion of the subscription row keyed by the
Stripe subscription id (see
`get_organization_subscription_by_stripe_subscription_id`). -/
def delete_organization_subscription (rows : List OrganizationSubscriptionRow)
    (stripeSubscriptionId : String) : List OrganizationSubscriptionRow :=
  rows.filter (fun r => ¬r.stripeSubscriptionId = stripeSubscriptionId)

/-- Embeds `remove_customer_subscription`: delete the row keyed by the Stripe
subscription id if it exists. -/
def remove_customer_subscription (db : SubscriptionDB) (sub : StripeSubscription) :
    SubscriptionDB :=
  match get_organization_subscription_by_stripe_subscription_id
      db.organizationSubscriptions sub.id with
  | some _ =>
      { db with organizationSubscriptions :=
          delete_organization_subscription db.organizationSubscriptions sub.id }
  | none => db

/-- Row written by `upsert_customer_subscription` for the given subscription
and item (`OrganizationSubscriptionUpsert` construction). -/
def upsertedRow (organizationId : Nat) (plan : SubscriptionPlan)
    (sub : StripeSubscription) (item : SubscriptionItem) :
    OrganizationSubscriptionRow :=
  { organizationId := organizationId
    stripeSubscriptionId := sub.id
    stripeSubscriptionItemId := item.id
    planCode := plan.planCode
    seatCount := item.quantity.getD 0
    stripeSubscriptionStatus := sub.status
    currentPeriodStart := item.currentPeriodStart
    currentPeriodEnd := item.currentPeriodEnd
    cancelAtPeriodEnd := sub.cancelAtPeriodEnd
    subscriptionStartDate := sub.startDate }

/-- Embeds `upsert_customer_subscription`: look up the plan by the item's
price id (raising `StripeOperationError` when absent) and upsert the
organization's subscription row. -/
def upsert_customer_subscription (db : SubscriptionDB) (organizationId : Nat)
    (sub : StripeSubscription) (item : SubscriptionItem) :
    Except SubscriptionEventError SubscriptionDB :=
  match get_plan_by_stripe_price_id db item.priceId with
  | none => .error (.stripeOperationError (.planNotFound item.priceId))
  | some plan =>
      .ok { db with organizationSubscriptions :=
          (upsert_organization_subscription db.organizationSubscriptions
            (upsertedRow organizationId plan sub item)) }

/-- Embeds `handle_subscription_event`: map the Stripe customer to an
organization (else `OrganizationNotFound`), require exactly one subscription
item (`len(subscription_data.items.data) != 1` raises `StripeOperationError`,
embedded as the wildcard branch of the match on the item list), then branch on
the subscription status exactly as the Python `match` does (a status not
listed falls through with no effect). -/
def handle_subscription_event (db : SubscriptionDB) (sub : StripeSubscription) :
    Except SubscriptionEventError SubscriptionDB :=
  match get_organization_by_stripe_customer_id db sub.customer with
  | none => .error .organizationNotFound
  | some organizationId =>
      match sub.items with
      | [item] =>
          if sub.status = "incomplete" then .ok db
          else if sub.status = "active" ∨ sub.status = "past_due" then
            upsert_customer_subscription db organizationId sub item
          else if sub.status = "canceled" ∨ sub.status = "incomplete_expired" then
            .ok (remove_customer_subscription db sub)
          else if sub.status = "paused" ∨ sub.status = "unpaid" ∨ sub.status = "trialing" then
            .error (.stripeOperationError (.unsupportedStatus sub.status))
          else .ok db
      | _ => .error (.stripeOperationError (.unexpectedItemCount sub.items.length))

/-- C5: on a received Stripe subscription whose customer maps to an
organization and which carries exactly one item, `handle_subscription_event`
implements the documented state machine: `active`/`past_due` upsert the
organization's subscription row (when the item's price maps to a plan),
`canceled`/`incomplete_expired` delete the organization's row when a row with
that Stripe subscription id exists and change nothing when none exists,
`incomplete` changes nothing and raises nothing, and
`unpaid`/`paused`/`trialing` raise a `StripeOperationError` (an error result
leaves the database unchanged: the transaction is never committed). -/
theorem handle_subscription_event_state_machine
    (db : SubscriptionDB) (sub : StripeSubscription) (organizationId : Nat)
    (item : SubscriptionItem)
    (horg : get_organization_by_stripe_customer_id db sub.customer = some organizationId)
    (hitems : sub.items = [item]) :
    ((sub.status = "active" ∨ sub.status = "past_due") →
      ∀ plan, get_plan_by_stripe_price_id db item.priceId = some plan →
        handle_subscription_event db sub =
          .ok { db with organizationSubscriptions :=
            (upsert_organization_subscription db.organizationSubscriptions
              (upsertedRow organizationId plan sub item)) }) ∧
    ((sub.status = "canceled" ∨ sub.status = "incomplete_expired") →
      handle_subscription_event db sub = .ok (remove_customer_subscription db sub) ∧
      ((∃ r ∈ db.organizationSubscriptions, r.stripeSubscriptionId = sub.id) →
        remove_customer_subscription db sub =
          { db with organizationSubscriptions :=
              delete_organization_subscription db.organizationSubscriptions sub.id }) ∧
      ((∀ r ∈ db.organizationSubscriptions, ¬r.stripeSubscriptionId = sub.id) →
        remove_customer_subscription db sub = db)) ∧
    (sub.status = "incomplete" → handle_subscription_event db sub = .ok db) ∧
    ((sub.status = "unpaid" ∨ sub.status = "paused" ∨ sub.status = "trialing") →
      handle_subscription_event db sub =
        .error (.stripeOperationError (.unsupportedStatus sub.status))) := by
  refine ⟨?_, ?_, ?_, ?_⟩
  · rintro (h | h) plan hplan <;>
      simp [handle_subscription_event, horg, hitems, h, upsert_customer_subscription, hplan]
  · rintro (h | h) <;>
      refine ⟨by simp [handle_subscription_event, horg, hitems, h], ?_, ?_⟩ <;>
      first
      | · intro hex
          have hsome : (db.organizationSubscriptions.find?
              (fun r => r.stripeSubscriptionId = sub.id)).isSome := by
            rw [List.find?_isSome]
            obtain ⟨r, hr, hrid⟩ := hex
            exact ⟨r, hr, by simpa using hrid⟩
          obtain ⟨r, hr⟩ := Option.isSome_iff_exists.mp hsome
          simp [remove_customer_subscription,
            get_organization_subscription_by_stripe_subscription_id, hr]
      | · intro hall
          have hnone : db.organizationSubscriptions.find?
              (fun r => r.stripeSubscriptionId = sub.id) = none := by
            rw [List.find?_eq_none]
            intro r hr
            simpa using hall r hr
          simp [remove_customer_subscription,
            get_organization_subscription_by_stripe_subscription_id, hnone]
  · intro h
    simp [handle_subscription_event, horg, hitems, h]
  · rintro (h | h | h) <;>
      simp [handle_subscription_event, horg, hitems, h]

/-- Sample plan sold under Stripe price `price_1`, used by the concrete runs
of the Stripe event handler and the change-subscription route. -/
def samplePlan : SubscriptionPlan :=
  { planCode := "PRO"
    stripePriceId := some "price_1"
    isPublic := true
    isFree := false
    minSeatsForSubscription := some 1
    maxSeatsForSubscription := some 100 }

/-- Existing subscription row of the sample database. -/
def sampleRow : OrganizationSubscriptionRow :=
  { organizationId := 1
    stripeSubscriptionId := "sub_1"
    stripeSubscriptionItemId := 10
    planCode := "PRO"
    seatCount := 3
    stripeSubscriptionStatus := "active"
    currentPeriodStart := some 100
    currentPeriodEnd := some 200
    cancelAtPeriodEnd := false
    subscriptionStartDate := some 50 }

/-- Sample database for concrete runs of the Stripe event handler: one
organization (id 1) mapped from customer `cus_1`, one plan sold under price
`price_1`, and one existing subscription row for Stripe subscription
`sub_1`. -/
def sampleSubscriptionDB : SubscriptionDB :=
  { organizationsByStripeCustomerId := [("cus_1", 1)]
    plans := [samplePlan]
    organizationSubscriptions := [sampleRow] }

/-- Sample Stripe subscription item priced at `price_1` with quantity 5. -/
def sampleItem : SubscriptionItem :=
  { id := 11, priceId := "price_1", quantity := some 5,
    currentPeriodStart := some 300, currentPeriodEnd := some 400 }

/-- Sample Stripe subscription for customer `cus_1` with a configurable
status. -/
def sampleSub (status : String) : StripeSubscription :=
  { id := "sub_1", customer := "cus_1", status := status,
    items := [sampleItem], cancelAtPeriodEnd := false, startDate := some 250 }

/-- C5 witness: the state machine evaluated on concrete subscriptions with
statuses `active`, `canceled`, `incomplete`, and `unpaid` against
`sampleSubscriptionDB`. -/
theorem handle_subscription_event_state_machine_witness :
    (handle_subscription_event sampleSubscriptionDB (sampleSub "active")).isOk = true ∧
      handle_subscription_event sampleSubscriptionDB (sampleSub "canceled") =
        .ok (remove_customer_subscription sampleSubscriptionDB (sampleSub "canceled")) ∧
      handle_subscription_event sampleSubscriptionDB (sampleSub "incomplete") =
        .ok sampleSubscriptionDB ∧
      handle_subscription_event sampleSubscriptionDB (sampleSub "unpaid") =
        .error (.stripeOperationError (.unsupportedStatus "unpaid")) := by
  have hactive := handle_subscription_event_state_machine sampleSubscriptionDB
    (sampleSub "active") 1 sampleItem (by decide) (by decide)
  have hcanceled := handle_subscription_event_state_machine sampleSubscriptionDB
    (sampleSub "canceled") 1 sampleItem (by decide) (by decide)
  have hincomplete := handle_subscription_event_state_machine sampleSubscriptionDB
    (sampleSub "incomplete") 1 sampleItem (by decide) (by decide)
  have hunpaid := handle_subscription_event_state_machine sampleSubscriptionDB
    (sampleSub "unpaid") 1 sampleItem (by decide) (by decide)
  refine ⟨?_, (hcanceled.2.1 (Or.inl rfl)).1, hincomplete.2.2.1 rfl,
    hunpaid.2.2.2 (Or.inl rfl)⟩
  rw [hactive.1 (Or.inl rfl) samplePlan (by decide)]
  rfl

/-- C10: when the Stripe customer resolves to an organization but the pulled
subscription's item list does not have exactly one element,
`handle_subscription_event` raises `StripeOperationError` before inspecting
the status (the theorem holds for every status value), and the error result
means no upsert or deletion is performed. -/
theorem handle_subscription_event_item_count_error
    (db : SubscriptionDB) (sub : StripeSubscription) (organizationId : Nat)
    (horg : get_organization_by_stripe_customer_id db sub.customer = some organizationId)
    (hlen : sub.items.length ≠ 1) :
    handle_subscription_event db sub =
      .error (.stripeOperationError (.unexpectedItemCount sub.items.length)) := by
  obtain ⟨sid, cust, st, items, cap, sd⟩ := sub
  simp only at horg hlen ⊢
  cases items with
  | nil => simp [handle_subscription_event, horg]
  | cons a tail =>
      cases tail with
      | nil => simp at hlen
      | cons b rest => simp [handle_subscription_event, horg]

/-- C10 witness: a concrete subscription carrying two items yields the
`StripeOperationError` with the offending count. -/
theorem handle_subscription_event_item_count_error_witness :
    handle_subscription_event sampleSubscriptionDB
        { id := "sub_1", customer := "cus_1", status := "active",
          items := [sampleItem, sampleItem], cancelAtPeriodEnd := false,
          startDate := some 250 } =
      .error (.stripeOperationError (.unexpectedItemCount 2)) :=
  handle_subscription_event_item_count_error sampleSubscriptionDB
    { id := "sub_1", customer := "cus_1", status := "active",
      items := [sampleItem, sampleItem], cancelAtPeriodEnd := false,
      startDate := some 250 } 1 (by decide) (by decide)

/-! ## Entitlement check and change-subscription route
(`is_entitlement_fulfilling_existing_usage` in
`aci/control_plane/services/subscription/subscription_service.py` and
`change_organization_subscription` in
`aci/control_plane/routes/subscriptions.py`). -/

/-- Entitlement schema (`aci/common/schemas/subscription.py`): `None` fields
mean unlimited. -/
structure Entitlement where
  seatCount : Option Nat
  maxCustomMcpServers : Option Nat
  logRetentionDays : Option Nat
deriving DecidableEq, Repr

/-- Embeds `is_entitlement_fulfilling_existing_usage`: the two usage numbers
fetched by `crud.organizations.count_organization_members` and
`crud.mcp_servers.list_mcp_servers` are passed as the organization's current
member count and custom-server count. -/
def is_entitlement_fulfilling_existing_usage (seatInUse : Nat)
    (customMcpServersInUse : Nat) (entitlement : Entitlement) : Bool :=
  if (match entitlement.seatCount with
      | some k => decide (k < seatInUse)
      | none => false) then false
  else if (match entitlement.maxCustomMcpServers with
      | some m => decide (m < customMcpServersInUse)
      | none => false) then false
  else true

/-- Organization roles (`OrganizationRole` in `aci/common/enums.py`). -/
inductive OrganizationRole where
  | admin
  | member
deriving DecidableEq, Repr

/-- Acting identity carried by the JWT (`ActAsInfo` in
`aci/common/schemas/auth.py`). -/
structure ActAsInfo where
  organizationId : Nat
  role : OrganizationRole
deriving DecidableEq, Repr

/-- Embeds `check_act_as_organization_role`: permitted iff the acting
organization matches the requested one (when given) and the acting role
satisfies the required role (only admin satisfies admin). -/
def check_act_as_organization_role (actAs : ActAsInfo)
    (requestedOrganizationId : Option Nat) (requiredRole : OrganizationRole) : Bool :=
  (match requestedOrganizationId with
   | some oid => decide (actAs.organizationId = oid)
   | none => true) &&
  !(decide (requiredRole = .admin) && !(decide (actAs.role = .admin)))

/-- Override row (`OrganizationEntitlementOverride`); passed opaquely to the
effective-entitlement computation. -/
structure OrganizationEntitlementOverride where
  seatCount : Option Nat
  maxCustomMcpServers : Option Nat
  logRetentionDays : Option Nat
deriving DecidableEq, Repr

/-- Fields of `organization.subscription` read by the change-subscription
route. -/
structure OrgSubscriptionInfo where
  planCode : String
  seatCount : Nat
deriving DecidableEq, Repr

/-- Organization record with the usage counts the route's checks consult. -/
structure OrganizationRecord where
  id : Nat
  subscription : Option OrgSubscriptionInfo
  entitlementOverride : Option OrganizationEntitlementOverride
  memberCount : Nat
  customMcpServerCount : Nat
deriving DecidableEq, Repr

/-- Control-plane database state visible to the change-subscription route. -/
structure ControlPlaneDB where
  organizations : List OrganizationRecord
  activePlansByCode : List (String × SubscriptionPlan)
deriving DecidableEq, Repr

/-- Request body of `POST .../change-subscription` (`SubscriptionRequest`). -/
structure SubscriptionRequest where
  planCode : String
  seatCount : Option Nat
deriving DecidableEq, Repr

/-- Reasons of the route's `RequestedSubscriptionInvalid` rejections, in
source order. -/
inductive SubscriptionInvalidReason where
  | planNotAvailable
  | seatCountRequired
  | planNotSelfServed
  | seatCountOutOfRange
  | entitlementNotMet
  | sameAsExisting
  | freePlanNotAllowed
deriving DecidableEq, Repr

/-- Errors raised by the change-subscription route. -/
inductive ChangeSubscriptionError where
  | notPermitted
  | organizationNotFound
  | requestedSubscriptionInvalid (reason : SubscriptionInvalidReason)
deriving DecidableEq, Repr

/-- Successful outcomes of the route: a Stripe Checkout session for a
free-to-paid upgrade, or an update of the existing Stripe subscription. -/
inductive ChangeSubscriptionOutcome where
  | checkout
  | updated
deriving DecidableEq, Repr

/-- Embeds `crud.organizations.get_organization_by_id`. -/
def get_organization_by_id (db : ControlPlaneDB) (organizationId : Nat) :
    Option OrganizationRecord :=
  db.organizations.find? (fun o => o.id = organizationId)

/-- Embeds `crud.subscriptions.get_active_plan_by_plan_code`. -/
def get_active_plan_by_plan_code (db : ControlPlaneDB) (planCode : String) :
    Option SubscriptionPlan :=
  (db.activePlansByCode.find? (fun p => p.1 = planCode)).map (·.2)

/-- Seat-range guard of the route:
`requested_seat_count < plan.min_seats_for_subscription` or
`requested_seat_count > plan.max_seats_for_subscription` (each only when the
bound is not `None`). -/
def seatOutOfRange (plan : SubscriptionPlan) (requestedSeatCount : Nat) : Bool :=
  (match plan.minSeatsForSubscription with
   | some m => decide (requestedSeatCount < m)
   | none => false) ||
  (match plan.maxSeatsForSubscription with
   | some m => decide (m < requestedSeatCount)
   | none => false)

/-- Same-as-existing guard of the route: the organization has a subscription
with the requested plan code and seat count. -/
def sameAsExistingSubscription (subscription : Option OrgSubscriptionInfo)
    (plan : SubscriptionPlan) (requestedSeatCount : Nat) : Bool :=
  match subscription with
  | some s => decide (s.planCode = plan.planCode) && decide (s.seatCount = requestedSeatCount)
  | none => false

/-- Embeds `change_organization_subscription`.  The route's
`compute_effective_entitlement` helper (plan fields overridden field-wise by a
non-expired override) is not in the source snapshot, so the route is
parameterised over it; every theorem below holds for any such function.  An
error result models a raised exception: nothing is committed, so the
organization's subscription is unchanged.  Python's `max_seats_for_subscription
or 1` treats both `None` and `0` as missing. -/
def change_organization_subscription
    (computeEffectiveEntitlement :
      Nat → SubscriptionPlan → Option OrganizationEntitlementOverride → Entitlement)
    (db : ControlPlaneDB) (actAs : ActAsInfo) (organizationId : Nat)
    (input : SubscriptionRequest) :
    Except ChangeSubscriptionError ChangeSubscriptionOutcome :=
  if !(check_act_as_organization_role actAs (some organizationId) .admin) then
    .error .notPermitted
  else
    match get_organization_by_id db organizationId with
    | none => .error .organizationNotFound
    | some organization =>
      match get_active_plan_by_plan_code db input.planCode with
      | none => .error (.requestedSubscriptionInvalid .planNotAvailable)
      | some requestedPlan =>
        if !requestedPlan.isPublic then
          .error (.requestedSubscriptionInvalid .planNotAvailable)
        else
          match
            (if requestedPlan.isFree then
              .ok (match requestedPlan.maxSeatsForSubscription with
                   | some k => if k = 0 then 1 else k
                   | none => 1)
            else
              match input.seatCount with
              | none => .error (.requestedSubscriptionInvalid .seatCountRequired)
              | some k =>
                  match requestedPlan.stripePriceId with
                  | none => .error (.requestedSubscriptionInvalid .planNotSelfServed)
                  | some _ => .ok k :
              Except ChangeSubscriptionError Nat)
          with
          | .error e => .error e
          | .ok requestedSeatCount =>
            if seatOutOfRange requestedPlan requestedSeatCount then
              .error (.requestedSubscriptionInvalid .seatCountOutOfRange)
            else if !(is_entitlement_fulfilling_existing_usage organization.memberCount
                organization.customMcpServerCount
                (computeEffectiveEntitlement requestedSeatCount requestedPlan
                  organization.entitlementOverride)) then
              .error (.requestedSubscriptionInvalid .entitlementNotMet)
            else if sameAsExistingSubscription organization.subscription requestedPlan
                requestedSeatCount then
              .error (.requestedSubscriptionInvalid .sameAsExisting)
            else if requestedPlan.isFree then
              .error (.requestedSubscriptionInvalid .freePlanNotAllowed)
            else
              match organization.subscription with
              | none => .ok .checkout
              | some _ => .ok .updated

theorem is_entitlement_false_of_seat {u c k : Nat} {entitlement : Entitlement}
    (h1 : entitlement.seatCount = some k) (hlt : k < u) :
    is_entitlement_fulfilling_existing_usage u c entitlement = false := by
  simp [is_entitlement_fulfilling_existing_usage, h1, hlt]

/-- C6: when the effective entitlement after the change carries a seat count
`k` strictly below the organization's member count, the entitlement check
returns `false` and the change-subscription route (on an otherwise valid paid
request) rejects with `RequestedSubscriptionInvalid`, leaving the subscription
unchanged (the error is raised before anything is written); and `None`
`seat_count` / `max_custom_mcp_servers` are unlimited: they never make the
entitlement check fail. -/
theorem change_subscription_entitlement_rejection
    (computeEffectiveEntitlement :
      Nat → SubscriptionPlan → Option OrganizationEntitlementOverride → Entitlement)
    (db : ControlPlaneDB) (actAs : ActAsInfo) (organizationId : Nat)
    (input : SubscriptionRequest) (organization : OrganizationRecord)
    (requestedPlan : SubscriptionPlan) (requestedSeatCount : Nat)
    (priceId : String) (k : Nat)
    (hperm : check_act_as_organization_role actAs (some organizationId) .admin = true)
    (horg : get_organization_by_id db organizationId = some organization)
    (hplan : get_active_plan_by_plan_code db input.planCode = some requestedPlan)
    (hpublic : requestedPlan.isPublic = true)
    (hnotfree : requestedPlan.isFree = false)
    (hseat : input.seatCount = some requestedSeatCount)
    (hprice : requestedPlan.stripePriceId = some priceId)
    (hrange : seatOutOfRange requestedPlan requestedSeatCount = false)
    (hentseat : (computeEffectiveEntitlement requestedSeatCount requestedPlan
        organization.entitlementOverride).seatCount = some k)
    (hlt : k < organization.memberCount) :
    (is_entitlement_fulfilling_existing_usage organization.memberCount
        organization.customMcpServerCount
        (computeEffectiveEntitlement requestedSeatCount requestedPlan
          organization.entitlementOverride) = false ∧
      change_organization_subscription computeEffectiveEntitlement db actAs
          organizationId input =
        .error (.requestedSubscriptionInvalid .entitlementNotMet)) ∧
    (∀ (u c : Nat) (entitlement : Entitlement), entitlement.seatCount = none →
      entitlement.maxCustomMcpServers = none →
      is_entitlement_fulfilling_existing_usage u c entitlement = true) := by
  have hfull := is_entitlement_false_of_seat (u := organization.memberCount)
    (c := organization.customMcpServerCount) hentseat hlt
  refine ⟨⟨hfull, ?_⟩, ?_⟩
  · simp [change_organization_subscription, hperm, horg, hplan, hpublic, hnotfree,
      hseat, hprice, hrange, hfull]
  · intro u c entitlement h1 h2
    simp [is_entitlement_fulfilling_existing_usage, h1, h2]

/-- Sample organization with 8 members for the concrete route run. -/
def sampleOrganization : OrganizationRecord :=
  { id := 1
    subscription := some { planCode := "PRO", seatCount := 3 }
    entitlementOverride := none
    memberCount := 8
    customMcpServerCount := 0 }

/-- Sample control-plane database for the concrete route run. -/
def sampleControlPlaneDB : ControlPlaneDB :=
  { organizations := [sampleOrganization]
    activePlansByCode := [("PRO", samplePlan)] }

/-- Effective-entitlement function used in the concrete run: entitled seats =
requested seats, custom-server cap 10. -/
def sampleComputeEffectiveEntitlement (seatCount : Nat) (_plan : SubscriptionPlan)
    (_override : Option OrganizationEntitlementOverride) : Entitlement :=
  { seatCount := some seatCount, maxCustomMcpServers := some 10, logRetentionDays := none }

/-- C6 witness: an organization with 8 members requesting 5 seats on plan
`PRO` is rejected with `RequestedSubscriptionInvalid` by the entitlement
check, and an all-`None` entitlement passes the check. -/
theorem change_subscription_entitlement_rejection_witness :
    (is_entitlement_fulfilling_existing_usage 8 0
        (sampleComputeEffectiveEntitlement 5 samplePlan none) = false ∧
      change_organization_subscription sampleComputeEffectiveEntitlement
          sampleControlPlaneDB { organizationId := 1, role := .admin } 1
          { planCode := "PRO", seatCount := some 5 } =
        .error (.requestedSubscriptionInvalid .entitlementNotMet)) ∧
    is_entitlement_fulfilling_existing_usage 8 0
      { seatCount := none, maxCustomMcpServers := none, logRetentionDays := none } = true := by
  have h := change_subscription_entitlement_rejection sampleComputeEffectiveEntitlement
    sampleControlPlaneDB { organizationId := 1, role := .admin } 1
    { planCode := "PRO", seatCount := some 5 } sampleOrganization samplePlan 5
    "price_1" 5 (by decide) (by decide) (by decide) (by decide) (by decide)
    (by decide) (by decide) (by decide) (by decide) (by decide)
  exact ⟨h.1, h.2 8 0 _ rfl rfl⟩

/-! ## Organization member removal and role update
(`remove_organization_member` and `update_organization_member_role` in
`aci/control_plane/routes/organizations.py`, with the `act_as` validation of
`aci/control_plane/dependencies.py`). -/

/-- Request context resolved by `deps.get_request_context`: the authenticated
user id and the validated `act_as`. -/
structure RequestContext where
  userId : Nat
  actAs : ActAsInfo
deriving DecidableEq, Repr

/-- Embeds `is_role_valid` of `dependencies.py`: an admin membership can act
as any role, a member membership only as member. -/
def is_role_valid (actAsRole : OrganizationRole) (membershipRole : OrganizationRole) : Bool :=
  match membershipRole with
  | .admin => true
  | .member => decide (actAsRole = .member)

/-- Embeds `_throw_if_not_permitted` of `routes/organizations.py` (the raise
is modelled as returning `false`). -/
def organizations_throw_if_not_permitted (actAs : ActAsInfo)
    (requestedOrganizationId : Option Nat) (requiredRole : OrganizationRole) : Bool :=
  (match requestedOrganizationId with
   | some oid => decide (actAs.organizationId = oid)
   | none => true) &&
  !(decide (requiredRole = .admin) && !(decide (actAs.role = .admin)))

/-- Membership row of an organization. -/
structure OrganizationMember where
  userId : Nat
  role : OrganizationRole
deriving DecidableEq, Repr

/-- HTTP 403 raised by the member-management routes. -/
inductive HttpError where
  | forbidden
deriving DecidableEq, Repr

/-- Embeds `remove_organization_member`: permission gate, then the last-admin
guard when acting as admin, the self-only guard when acting as member, then
the removal (the absent `crud.organizations.remove_organization_member` is the
repository primitive dropping the user's membership row). -/
def remove_organization_member (context : RequestContext) (organizationId : Nat)
    (userId : Nat) (members : List OrganizationMember) :
    Except HttpError (List OrganizationMember) :=
  if !(organizations_throw_if_not_permitted context.actAs (some organizationId) .member) then
    .error .forbidden
  else if context.actAs.role = .admin ∧
      (let admins := members.filter (fun m => m.role = .admin)
       admins.length = 1 ∧ admins.head?.map (fun m => m.userId) = some userId) then
    .error .forbidden
  else if context.actAs.role = .member ∧ ¬context.userId = userId then
    .error .forbidden
  else
    .ok (members.filter (fun m => ¬m.userId = userId))

/-- Embeds `update_organization_member_role`: admin-only permission gate, the
last-admin downgrade guard, then the role update (the absent
`crud.organizations.update_organization_member_role` is the repository
primitive setting the member's role). -/
def update_organization_member_role (context : RequestContext) (organizationId : Nat)
    (userId : Nat) (requestRole : OrganizationRole)
    (members : List OrganizationMember) :
    Except HttpError (List OrganizationMember) :=
  if !(organizations_throw_if_not_permitted context.actAs (some organizationId) .admin) then
    .error .forbidden
  else if (let admins := members.filter (fun m => m.role = .admin)
           admins.length = 1 ∧ admins.head?.map (fun m => m.userId) = some userId ∧
             ¬requestRole = .admin) then
    .error .forbidden
  else
    .ok (members.map (fun m => if m.userId = userId then { m with role := requestRole } else m))

theorem head?_filter_eq_find? {α : Type} (p : α → Bool) :
    ∀ l : List α, (l.filter p).head? = l.find? p := by
  intro l
  induction l with
  | nil => rfl
  | cons a l ih =>
      by_cases ha : p a = true
      · simp [List.filter_cons, List.find?_cons, ha]
      · simp [List.filter_cons, List.find?_cons, ha, ih]

/-- C8 counterexample: the claim fails on the code.  An organization whose
only member is its sole admin (user 1); user 1's JWT acts as `member` for
organization 7, which `is_role_valid` accepts because the membership role is
admin.  The removal request for user 1 would remove the organization's only
remaining admin, yet it is NOT rejected with 403: it succeeds and leaves the
organization with zero admins. -/
theorem remove_last_admin_counterexample :
    is_role_valid .member .admin = true ∧
      remove_organization_member { userId := 1, actAs := { organizationId := 7, role := .member } }
          7 1 [{ userId := 1, role := .admin }] = .ok [] ∧
      (([] : List OrganizationMember).filter (fun m => m.role = .admin)).length = 0 := by
  refine ⟨rfl, ?_, rfl⟩
  rfl

/-- C8 (amended): the last-admin protection holds for the guarded paths: a
removal request made while acting as admin that targets the organization's
only remaining admin is rejected with 403, and a role-update request that
would downgrade the only remaining admin is rejected with 403 (both leave the
membership unchanged, since the exception aborts the request before the
write); however a sole admin whose JWT acts as member may remove themselves,
so the at-least-one-admin invariant is only enforced on these guarded
paths. -/
theorem last_admin_guard_amended
    (context : RequestContext) (organizationId targetUserId : Nat)
    (members : List OrganizationMember) (requestRole : OrganizationRole)
    (h1 : (members.filter (fun m => m.role = .admin)).length = 1)
    (h2 : (members.filter (fun m => m.role = .admin)).head?.map (fun m => m.userId) =
      some targetUserId) :
    (organizations_throw_if_not_permitted context.actAs (some organizationId) .member = true →
      context.actAs.role = .admin →
      remove_organization_member context organizationId targetUserId members =
        .error .forbidden) ∧
    (organizations_throw_if_not_permitted context.actAs (some organizationId) .admin = true →
      ¬requestRole = .admin →
      update_organization_member_role context organizationId targetUserId requestRole members =
        .error .forbidden) := by
  have h2' := h2
  rw [head?_filter_eq_find?] at h2'
  obtain ⟨x, hx1, hx2⟩ := Option.map_eq_some'.mp h2'
  constructor
  · intro hperm hrole
    simp [remove_organization_member, hperm, hrole, h1]
    exact ⟨x, hx1, hx2⟩
  · intro hperm hreq
    simp [update_organization_member_role, hperm, h1, hreq]
    exact ⟨x, hx1, hx2⟩

/-- C8 amended witness: organization 7 has members `[1: admin, 2: member]`;
acting as admin, removing user 1 is rejected, and downgrading user 1 to
member is rejected. -/
theorem last_admin_guard_amended_witness :
    remove_organization_member { userId := 2, actAs := { organizationId := 7, role := .admin } }
        7 1 [{ userId := 1, role := .admin }, { userId := 2, role := .member }] =
      .error .forbidden ∧
    update_organization_member_role
        { userId := 2, actAs := { organizationId := 7, role := .admin } } 7 1 .member
        [{ userId := 1, role := .admin }, { userId := 2, role := .member }] =
      .error .forbidden := by
  have h := last_admin_guard_amended
    { userId := 2, actAs := { organizationId := 7, role := .admin } } 7 1
    [{ userId := 1, role := .admin }, { userId := 2, role := .member }] .member
    (by decide) (by decide)
  exact ⟨h.1 (by decide) rfl, h.2 (by decide) (by decide)⟩

/-! ## Orphan connected-account reaper
(`OrphanRecordsRemover` in
`aci/control_plane/services/orphan_records_remover.py` together with
`check_mcp_server_config_accessibility` and
`_is_mcp_server_configuration_in_allowed_team` of
`aci/control_plane/services/rbac/access_control.py`). -/

/-- Connected-account row fields read by the reaper. -/
structure ConnectedAccount where
  id : Nat
  userId : Nat
  mcpServerConfigurationId : Nat
  ownership : ConnectedAccountOwnership
deriving DecidableEq, Repr

/-- MCP server configuration fields read by the access checks. -/
structure MCPServerConfiguration where
  id : Nat
  organizationId : Nat
  allowedTeams : List Nat
deriving DecidableEq, Repr

/-- Database state visible to the reaper: the configuration table, the team
memberships (`crud.teams.get_teams_by_user_id organization_id user_id`,
embedded as a lookup function), and the connected-account table. -/
structure RBACDB where
  configurations : List MCPServerConfiguration
  userTeams : Nat → Nat → List Nat
  connectedAccounts : List ConnectedAccount

/-- Embeds `crud.mcp_server_configurations.get_mcp_server_configuration_by_id`. -/
def get_mcp_server_configuration_by_id (db : RBACDB) (configurationId : Nat) :
    Option MCPServerConfiguration :=
  db.configurations.find? (fun c => c.id = configurationId)

/-- Embeds `_is_mcp_server_configuration_in_allowed_team`: true iff the user's
teams (within the configuration's organization) intersect the configuration's
`allowed_teams`; `none` models the not-found error of the configuration
lookup (`throw_error_if_not_found=True`). -/
def is_mcp_server_configuration_in_allowed_team (db : RBACDB) (userId : Nat)
    (mcpServerConfigurationId : Nat) : Option Bool :=
  match get_mcp_server_configuration_by_id db mcpServerConfigurationId with
  | none => none
  | some config =>
      some ((db.userTeams config.organizationId userId).any
        (fun t => config.allowedTeams.contains t))

/-- Errors surfaced by the access-control helpers. -/
inductive RBACError where
  | notPermitted
  | configurationNotFound
deriving DecidableEq, Repr

/-- Embeds `check_mcp_server_config_accessibility` exactly as written in the
source: when the user is NOT in an allowed team it raises (or, with
`throw_error_if_not_permitted=False`, returns `True`), and when the user IS in
an allowed team it returns `False`. -/
def check_mcp_server_config_accessibility (db : RBACDB) (userId : Nat)
    (mcpServerConfigurationId : Nat) (throwErrorIfNotPermitted : Bool) :
    Except RBACError Bool :=
  match is_mcp_server_configuration_in_allowed_team db userId mcpServerConfigurationId with
  | none => .error .configurationNotFound
  | some inTeam =>
      if !inTeam then
        if throwErrorIfNotPermitted then .error .notPermitted else .ok true
      else .ok false

/-- Embeds `OrphanRecordsRemover._clean_orphan_connected_accounts`: walk the
given accounts; non-individual accounts are kept; an individual account is
deleted when the accessibility check (non-throwing) reports it inaccessible.
Returns the deleted (orphan) account ids and the surviving accounts. -/
def clean_orphan_connected_accounts (db : RBACDB) :
    List ConnectedAccount → Except RBACError (List Nat × List ConnectedAccount)
  | [] => .ok ([], [])
  | ca :: rest =>
      if ¬ca.ownership = .individual then
        match clean_orphan_connected_accounts db rest with
        | .error e => .error e
        | .ok (orphans, kept) => .ok (orphans, ca :: kept)
      else
        match check_mcp_server_config_accessibility db ca.userId
            ca.mcpServerConfigurationId false with
        | .error e => .error e
        | .ok accessible =>
            if !accessible then
              match clean_orphan_connected_accounts db rest with
              | .error e => .error e
              | .ok (orphans, kept) => .ok (ca.id :: orphans, kept)
            else
              match clean_orphan_connected_accounts db rest with
              | .error e => .error e
              | .ok (orphans, kept) => .ok (orphans, ca :: kept)

/-- Embeds `crud.connected_accounts.get_connected_accounts_by_mcp_server_configuration_id`. -/
def get_connected_accounts_by_mcp_server_configuration_id (db : RBACDB)
    (mcpServerConfigurationId : Nat) : List ConnectedAccount :=
  db.connectedAccounts.filter
    (fun ca => ca.mcpServerConfigurationId = mcpServerConfigurationId)

/-- Embeds the connected-account phase of
`OrphanRecordsRemover.on_mcp_server_configuration_allowed_teams_updated` (the
subsequent bundle sweep does not touch connected accounts and is modelled
separately by the bundle-edit helper). -/
def on_mcp_server_configuration_allowed_teams_updated (db : RBACDB)
    (mcpServerConfiguration : MCPServerConfiguration) :
    Except RBACError (List Nat × List ConnectedAccount) :=
  clean_orphan_connected_accounts db
    (get_connected_accounts_by_mcp_server_configuration_id db mcpServerConfiguration.id)

/-- Sample reaper state: configuration 5 of organization 1 allows team 1;
individual connected account 100 belongs to user 10, whose teams are `[1]`
(still allowed); individual connected account 101 belongs to user 11, who is
in no team (no longer allowed). -/
def sampleRBACDB : RBACDB :=
  { configurations := [{ id := 5, organizationId := 1, allowedTeams := [1] }]
    userTeams := fun organizationId userId =>
      if organizationId = 1 ∧ userId = 10 then [1] else []
    connectedAccounts :=
      [{ id := 100, userId := 10, mcpServerConfigurationId := 5, ownership := .individual },
       { id := 101, userId := 11, mcpServerConfigurationId := 5, ownership := .individual }] }

/-- C1: evaluation of the reaper at the failing input.  The owner of account
100 IS in an allowed team of configuration 5 and the owner of account 101 is
NOT, yet `on_mcp_server_configuration_allowed_teams_updated` deletes account
100 and keeps account 101 — the exact opposite of the claimed invariant —
because `check_mcp_server_config_accessibility` returns inverted booleans
(contradicting its own docstring and the repository's
`test_orphan_records_remover` assertions). -/
theorem orphan_reaper_inverted_evaluation :
    on_mcp_server_configuration_allowed_teams_updated sampleRBACDB
        { id := 5, organizationId := 1, allowedTeams := [1] } =
      .ok ([100],
        [{ id := 101, userId := 11, mcpServerConfigurationId := 5,
           ownership := .individual }]) ∧
      is_mcp_server_configuration_in_allowed_team sampleRBACDB 10 5 = some true ∧
      is_mcp_server_configuration_in_allowed_team sampleRBACDB 11 5 = some false := by
  refine ⟨?_, ?_, ?_⟩ <;> rfl

/-! ## RBAC action permission check (`is_action_permitted` in
`aci/control_plane/services/rbac/access_control.py` with the definitions of
`aci/control_plane/services/rbac/definitions.py`). -/

/-- Resource variant accepted by the RBAC checks (`AccessibleResource`), each
constructor carrying the fields the checks read; a connected account carries
its configuration's organization id (the code reads
`resource.mcp_server_configuration.organization_id`). -/
inductive AccessibleResource where
  | mcpServer (organizationId : Option Nat)
  | mcpServerConfiguration (id : Nat) (organizationId : Nat)
      (connectedAccountOwnership : ConnectedAccountOwnership)
  | mcpServerBundle (organizationId : Nat) (userId : Nat)
  | connectedAccount (userId : Nat) (ownership : ConnectedAccountOwnership)
      (configurationOrganizationId : Nat)
  | team (organizationId : Nat)
  | organization (id : Nat)
deriving DecidableEq, Repr

/-- Python `resource.__class__.__name__` used by the resource-type check. -/
def resourceTypeName : AccessibleResource → String
  | .mcpServer _ => "MCPServer"
  | .mcpServerConfiguration _ _ _ => "MCPServerConfiguration"
  | .mcpServerBundle _ _ => "MCPServerBundle"
  | .connectedAccount _ _ _ => "ConnectedAccount"
  | .team _ => "Team"
  | .organization _ => "Organization"

/-- Resource scopes of the ACL (`ResourceScope`). -/
inductive ResourceScope where
  | sameOrg
  | selfSameOrg
  | allowedTeamSameOrg
  | any
deriving DecidableEq, Repr

/-- One allowed-resource criterion (`AllowedResourceCriterion`), an AND of
optional predicates. -/
structure AllowedResourceCriterion where
  resourceScope : Option ResourceScope
  isPublic : Option Bool
  connectedAccountOwnership : Option ConnectedAccountOwnership
  ownership : Option ConnectedAccountOwnership
deriving DecidableEq, Repr

/-- Action-enum classes of `ControlPlaneActionEnum`; `_resource_lookup`
dispatches on them. -/
inductive ActionClass where
  | mcpServer
  | mcpServerConfiguration
  | mcpServerBundle
  | connectedAccount
  | team
  | organization
deriving DecidableEq, Repr

/-- A control-plane action: its enum class and its string value. -/
structure ControlPlaneAction where
  actionClass : ActionClass
  name : String
deriving DecidableEq, Repr

/-- One permission entry of a role's ACL (`ControlPlanePermission`). -/
structure ControlPlanePermission where
  action : ControlPlaneAction
  resourceType : Option String
  allowedResourceCriteria : Option (List AllowedResourceCriterion)
deriving DecidableEq, Repr

/-- Embeds `_match_user_action_permission`: the first permission of the acting
role's list whose action matches (none when the role is not in the ACL). -/
def match_user_action_permission
    (acl : List (OrganizationRole × List ControlPlanePermission))
    (context : RequestContext) (action : ControlPlaneAction) :
    Option ControlPlanePermission :=
  match acl.find? (fun p => p.1 = context.actAs.role) with
  | none => none
  | some entry => entry.2.find? (fun p => p.action = action)

/-- Embeds `_is_resource_same_org`: for an MCP server the nullable
organization id must equal the acting organization (a public server's `None`
never matches); a connected account is compared through its configuration's
organization. -/
def is_resource_same_org (actAs : ActAsInfo) : AccessibleResource → Bool
  | .mcpServer organizationId => organizationId = some actAs.organizationId
  | .mcpServerConfiguration _ organizationId _ => organizationId = actAs.organizationId
  | .mcpServerBundle organizationId _ => organizationId = actAs.organizationId
  | .connectedAccount _ _ configurationOrganizationId =>
      configurationOrganizationId = actAs.organizationId
  | .team organizationId => organizationId = actAs.organizationId
  | .organization id => id = actAs.organizationId

/-- Embeds `_is_resource_self`: connected accounts and bundles belong to their
owner; other resources are never "self". -/
def is_resource_self (userId : Nat) : AccessibleResource → Bool
  | .connectedAccount ownerId _ _ => ownerId = userId
  | .mcpServerBundle _ ownerId => ownerId = userId
  | _ => false

/-- Embeds `_is_user_in_resource_allowed_teams`: only an MCP server
configuration can match, through the allowed-team intersection (the `none`
result models the configuration-lookup error). -/
def is_user_in_resource_allowed_teams (db : RBACDB) (userId : Nat) :
    AccessibleResource → Option Bool
  | .mcpServerConfiguration id _ _ =>
      is_mcp_server_configuration_in_allowed_team db userId id
  | _ => some false

/-- Embeds `_is_resource_match_allowed_resource_scope`. -/
def is_resource_match_allowed_resource_scope (db : RBACDB) (context : RequestContext)
    (resource : AccessibleResource) : ResourceScope → Option Bool
  | .sameOrg => some (is_resource_same_org context.actAs resource)
  | .selfSameOrg => some (is_resource_self context.userId resource)
  | .allowedTeamSameOrg => is_user_in_resource_allowed_teams db context.userId resource
  | .any => some true

/-- Per-criterion `is_public` predicate of the loop body: when present, the
resource must be an `MCPServer` whose `organization_id` is not `None`
(the criterion's boolean value itself is never consulted by the code). -/
def criterionPublicOk (resource : AccessibleResource)
    (criterion : AllowedResourceCriterion) : Bool :=
  match criterion.isPublic with
  | none => true
  | some _ =>
      match resource with
      | .mcpServer (some _) => true
      | _ => false

/-- Per-criterion `connected_account_ownership` predicate of the loop body. -/
def criterionConnectedAccountOwnershipOk (resource : AccessibleResource)
    (criterion : AllowedResourceCriterion) : Bool :=
  match criterion.connectedAccountOwnership with
  | none => true
  | some o =>
      match resource with
      | .mcpServerConfiguration _ _ cao => cao = o
      | _ => false

/-- Per-criterion `ownership` predicate of the loop body. -/
def criterionOwnershipOk (resource : AccessibleResource)
    (criterion : AllowedResourceCriterion) : Bool :=
  match criterion.ownership with
  | none => true
  | some o =>
      match resource with
      | .connectedAccount _ own _ => own = o
      | _ => false

/-- One iteration of the criteria loop of `is_action_permitted`: the AND of
the criterion's optional predicates (`none` models the configuration-lookup
error of the allowed-team scope). -/
def criterionSatisfied (db : RBACDB) (context : RequestContext)
    (resource : AccessibleResource) (criterion : AllowedResourceCriterion) :
    Option Bool :=
  match (match criterion.resourceScope with
         | none => some true
         | some scope =>
             is_resource_match_allowed_resource_scope db context resource scope) with
  | none => none
  | some scopeOk =>
      some (scopeOk && criterionPublicOk resource criterion &&
        criterionConnectedAccountOwnershipOk resource criterion &&
        criterionOwnershipOk resource criterion)

/-- The criteria loop of `is_action_permitted`: returns `False` at the first
criterion that is not met, `True` only after every criterion passed. -/
def checkAllowedResourceCriteria (db : RBACDB) (context : RequestContext)
    (resource : AccessibleResource) : List AllowedResourceCriterion → Option Bool
  | [] => some true
  | c :: rest =>
      match criterionSatisfied db context resource c with
      | none => none
      | some false => some false
      | some true => checkAllowedResourceCriteria db context resource rest

/-- Errors raised by `is_action_permitted`. -/
inductive ActionPermissionError where
  | valueError
  | notPermitted
  | configurationNotFound
deriving DecidableEq, Repr

/-- Embeds `is_action_permitted`.  `resourceLookup` stands for
`_resource_lookup` (the per-action-class crud getters).  The checks run in
source order: ambiguity guard, permission match, `None`-criteria short-cut,
lazy resource lookup, resource presence, resource-type comparison (a `None`
`resource_type` never equals a class name), then the criteria loop, whose
failure returns `False` without raising even in throwing mode. -/
def is_action_permitted (db : RBACDB)
    (resourceLookup : ActionClass → Nat → Option AccessibleResource)
    (acl : List (OrganizationRole × List ControlPlanePermission))
    (context : RequestContext) (userAction : ControlPlaneAction)
    (resource : Option AccessibleResource) (resourceId : Option Nat)
    (throwErrorIfNotPermitted : Bool) : Except ActionPermissionError Bool :=
  if resource.isSome ∧ resourceId.isSome then
    if throwErrorIfNotPermitted then .error .valueError else .ok false
  else
    match match_user_action_permission acl context userAction with
    | none => if throwErrorIfNotPermitted then .error .notPermitted else .ok false
    | some permission =>
      match permission.allowedResourceCriteria with
      | none => .ok true
      | some criteria =>
          match (match resource, resourceId with
                 | none, some rid => resourceLookup userAction.actionClass rid
                 | r, _ => r) with
          | none => if throwErrorIfNotPermitted then .error .notPermitted else .ok false
          | some res =>
              if ¬permission.resourceType = some (resourceTypeName res) then
                if throwErrorIfNotPermitted then .error .notPermitted else .ok false
              else
                match checkAllowedResourceCriteria db context res criteria with
                | none => .error .configurationNotFound
                | some b => .ok b

theorem checkAllowedResourceCriteria_eq_true_iff (db : RBACDB)
    (context : RequestContext) (resource : AccessibleResource) :
    ∀ criteria : List AllowedResourceCriterion,
      (checkAllowedResourceCriteria db context resource criteria = some true ↔
        ∀ c ∈ criteria, criterionSatisfied db context resource c = some true) := by
  intro criteria
  induction criteria with
  | nil => simp [checkAllowedResourceCriteria]
  | cons c rest ih =>
      cases hc : criterionSatisfied db context resource c with
      | none =>
          simp only [checkAllowedResourceCriteria, hc]
          constructor
          · intro h; cases h
          · intro h
            exact absurd (h c (List.mem_cons_self c rest)) (by simp [hc])
      | some b =>
          cases b with
          | false =>
              simp only [checkAllowedResourceCriteria, hc]
              constructor
              · intro h; cases h
              · intro h
                exact absurd (h c (List.mem_cons_self c rest)) (by simp [hc])
          | true =>
              simp only [checkAllowedResourceCriteria, hc, ih]
              constructor
              · intro h d hd
                rcases List.mem_cons.mp hd with rfl | hd'
                · exact hc
                · exact h d hd'
              · intro h d hd
                exact h d (List.mem_cons_of_mem c hd)

/-- Sample RBAC setup: the admin role may list connected accounts, restricted
by TWO criteria: `{resource_scope: any}` and `{ownership: individual}`. -/
def sampleListAction : ControlPlaneAction :=
  { actionClass := .connectedAccount, name := "connected_account:list" }

/-- Criterion with only `resource_scope = any`. -/
def criterionAnyScope : AllowedResourceCriterion :=
  { resourceScope := some .any, isPublic := none,
    connectedAccountOwnership := none, ownership := none }

/-- Criterion with only `ownership = individual`. -/
def criterionIndividualOwnership : AllowedResourceCriterion :=
  { resourceScope := none, isPublic := none,
    connectedAccountOwnership := none, ownership := some .individual }

/-- Permission carrying the two sample criteria. -/
def sampleListPermission : ControlPlanePermission :=
  { action := sampleListAction
    resourceType := some "ConnectedAccount"
    allowedResourceCriteria := some [criterionAnyScope, criterionIndividualOwnership] }

/-- Sample ACL granting `sampleListPermission` to admins. -/
def sampleACL : List (OrganizationRole × List ControlPlanePermission) :=
  [(OrganizationRole.admin, [sampleListPermission])]

/-- Sample acting context: user 9, acting as admin of organization 1. -/
def sampleContext : RequestContext :=
  { userId := 9, actAs := { organizationId := 1, role := .admin } }

/-- Resource lookup with no resources (the sample calls pass the resource
directly). -/
def sampleResourceLookup : ActionClass → Nat → Option AccessibleResource :=
  fun _ _ => none

/-- C2 counterexample: the permission carries the two criteria above, and a
SHARED connected account of org 1 fully satisfies the first criterion
(`resource_scope: any`), so the claim (criteria OR-combined) predicts the
action is granted; the code returns not-granted (`ok false`) because the
second criterion (`ownership: individual`) fails — the loop is an AND over
the criteria list. -/
theorem is_action_permitted_or_counterexample :
    match_user_action_permission sampleACL sampleContext sampleListAction =
        some sampleListPermission ∧
      sampleListPermission.allowedResourceCriteria =
        some [criterionAnyScope, criterionIndividualOwnership] ∧
      criterionSatisfied sampleRBACDB sampleContext
        (.connectedAccount 9 .shared 1) criterionAnyScope = some true ∧
      is_action_permitted sampleRBACDB sampleResourceLookup sampleACL sampleContext
        sampleListAction (some (.connectedAccount 9 .shared 1)) none false = .ok false := by
  refine ⟨rfl, rfl, rfl, rfl⟩

/-- C2 (amended): when the acting role's matched permission carries a criteria
list and the resource is supplied and has the permission's resource type,
`is_action_permitted` grants the action if and only if EVERY criterion in the
list is fully satisfied by the resource (criteria are AND-combined; each
criterion's own predicates are AND-combined); satisfying only one criterion
is not sufficient. -/
theorem is_action_permitted_criteria_and (db : RBACDB)
    (resourceLookup : ActionClass → Nat → Option AccessibleResource)
    (acl : List (OrganizationRole × List ControlPlanePermission))
    (context : RequestContext) (userAction : ControlPlaneAction)
    (res : AccessibleResource) (permission : ControlPlanePermission)
    (criteria : List AllowedResourceCriterion) (throwFlag : Bool)
    (hmatch : match_user_action_permission acl context userAction = some permission)
    (hcrit : permission.allowedResourceCriteria = some criteria)
    (htype : permission.resourceType = some (resourceTypeName res)) :
    (is_action_permitted db resourceLookup acl context userAction (some res) none
        throwFlag = .ok true ↔
      ∀ c ∈ criteria, criterionSatisfied db context res c = some true) := by
  have hred : is_action_permitted db resourceLookup acl context userAction (some res)
      none throwFlag =
      (match checkAllowedResourceCriteria db context res criteria with
       | none => .error .configurationNotFound
       | some b => .ok b) := by
    simp [is_action_permitted, hmatch, hcrit, htype]
  rw [hred, ← checkAllowedResourceCriteria_eq_true_iff]
  cases hchk : checkAllowedResourceCriteria db context res criteria with
  | none => simp
  | some b => cases b <;> simp

/-- C2 amended witness: an INDIVIDUAL connected account satisfies both sample
criteria, so the amended theorem grants the action at this concrete input. -/
theorem is_action_permitted_criteria_and_witness :
    is_action_permitted sampleRBACDB sampleResourceLookup sampleACL sampleContext
        sampleListAction (some (.connectedAccount 9 .individual 1)) none false =
      .ok true := by
  refine (is_action_permitted_criteria_and sampleRBACDB sampleResourceLookup sampleACL
    sampleContext sampleListAction (.connectedAccount 9 .individual 1)
    sampleListPermission [criterionAnyScope, criterionIndividualOwnership] false
    rfl rfl rfl).mpr ?_
  intro c hc
  rcases List.mem_cons.mp hc with rfl | hc'
  · rfl
  · rcases List.mem_cons.mp hc' with rfl | hc''
    · rfl
    · cases hc''

/-! ## Tool-call log pagination (`get` in
`aci/common/db/crud/mcp_tool_call_logs.py`)

The log table is embedded as a list of rows; the SQL
`SELECT ... WHERE ... ORDER BY started_at DESC, id DESC LIMIT limit+1` is
embedded as filter, sort, take.  UUIDs order lexicographically, so ids are
embedded as `Nat`. -/

/-- Row of `MCPToolCallLog` with the fields the paginated read consults. -/
structure MCPToolCallLog where
  id : Nat
  startedAt : Nat
  mcpToolName : String
deriving DecidableEq, Repr

/-- Cursor payload `{started_at, id}` (`MCPToolCallLogCursor`). -/
structure MCPToolCallLogCursor where
  startedAt : Nat
  id : Nat
deriving DecidableEq, Repr

/-- Sort key of the read: the composite `(started_at, id)`. -/
def logKey (r : MCPToolCallLog) : Nat × Nat := (r.startedAt, r.id)

/-- Non-strict descending comparison realising
`ORDER BY started_at DESC, id DESC`: `rowGeB a b` holds when `a` may appear
no later than `b` in the output. -/
def rowGeB (a b : MCPToolCallLog) : Bool :=
  (b.startedAt < a.startedAt) || (b.startedAt = a.startedAt && b.id ≤ a.id)

/-- Strict version of `rowGeB`: `a` sorts strictly before `b`. -/
def rowGtB (a b : MCPToolCallLog) : Bool :=
  (b.startedAt < a.startedAt) || (b.startedAt = a.startedAt && b.id < a.id)

instance : IsTotal MCPToolCallLog (fun a b => rowGeB a b = true) := by
  constructor
  intro a b
  simp only [rowGeB, Bool.or_eq_true, Bool.and_eq_true, decide_eq_true_eq]
  omega

instance : IsTrans MCPToolCallLog (fun a b => rowGeB a b = true) := by
  constructor
  intro a b c
  simp only [rowGeB, Bool.or_eq_true, Bool.and_eq_true, decide_eq_true_eq]
  omega

/-- The `ORDER BY started_at DESC, id DESC` of the read, embedded as a stable
sort. -/
def sortRowsDesc (l : List MCPToolCallLog) : List MCPToolCallLog :=
  List.insertionSort (fun a b => rowGeB a b = true) l

/-- The `mcp_tool_name` filter of the read: `if mcp_tool_name:` adds an SQL
EQUALITY clause (`MCPToolCallLog.mcp_tool_name == mcp_tool_name`); a `None` or
empty filter string is falsy and adds no clause. -/
def matchesNameFilter : Option String → MCPToolCallLog → Bool
  | none, _ => true
  | some s, row => if s = "" then true else row.mcpToolName = s

/-- The cursor filter of the read: strict less-than on the composite
`(started_at, id)` — `started_at < cursor.started_at OR (started_at =
cursor.started_at AND id < cursor.id)`. -/
def matchesCursor : Option MCPToolCallLogCursor → MCPToolCallLog → Bool
  | none, _ => true
  | some c, row =>
      (row.startedAt < c.startedAt) || (row.startedAt = c.startedAt && row.id < c.id)

/-- Embeds `mcp_tool_call_logs.get`: apply the filters, order descending,
fetch `limit + 1` rows; on overflow return the first `limit` rows and the
`limit`-th returned row as next cursor, else all rows and no cursor. -/
def mcp_tool_call_logs_get (db : List MCPToolCallLog) (limit : Nat)
    (cursor : Option MCPToolCallLogCursor) (mcpToolName : Option String) :
    List MCPToolCallLog × Option MCPToolCallLog :=
  let results := (sortRowsDesc ((db.filter (matchesNameFilter mcpToolName)).filter
      (matchesCursor cursor))).take (limit + 1)
  if limit < results.length then (results.take limit, results.get? (limit - 1))
  else (results, none)

/-- Cursor built from a returned row (the route encodes `(started_at, id)` of
the returned cursor row). -/
def cursorOfRow (r : MCPToolCallLog) : MCPToolCallLogCursor :=
  { startedAt := r.startedAt, id := r.id }

/-- Repeated paginated reading: call `get`, emit the page, and continue with
the returned next cursor until it is `null`.  `fuel` bounds the number of
calls; `paginate` supplies enough fuel for the whole table. -/
def paginateAux (db : List MCPToolCallLog) (limit : Nat) (mcpToolName : Option String) :
    Nat → Option MCPToolCallLogCursor → List MCPToolCallLog
  | 0, _ => []
  | fuel + 1, cursor =>
      match mcp_tool_call_logs_get db limit cursor mcpToolName with
      | (page, none) => page
      | (page, some nextRow) =>
          page ++ paginateAux db limit mcpToolName fuel (some (cursorOfRow nextRow))

/-- Full enumeration by repeated paginated reads starting with no cursor. -/
def paginate (db : List MCPToolCallLog) (limit : Nat)
    (mcpToolName : Option String) : List MCPToolCallLog :=
  paginateAux db limit mcpToolName (db.length + 1) none

/-- All rows matching the name filter, in `(started_at DESC, id DESC)`
order: the reference enumeration the pagination should produce. -/
def sortedMatchingRows (db : List MCPToolCallLog) (mcpToolName : Option String) :
    List MCPToolCallLog :=
  sortRowsDesc (db.filter (matchesNameFilter mcpToolName))

/-- C4: evaluation of the read at the failing input.  The table holds one row
named `GITHUB__TOOL_A_X`; filtering on `tool_a` (and even on the exact-case
substring `TOOL_A`) returns nothing, while filtering on the full exact name
returns the row: the code filters by exact string equality, not by the
case-insensitive substring match that the claim (and the filter schema's own
description) promises. -/
theorem tool_name_filter_exact_equality_evaluation :
    mcp_tool_call_logs_get
        [{ id := 1, startedAt := 100, mcpToolName := "GITHUB__TOOL_A_X" }] 10 none
        (some "tool_a") = ([], none) ∧
      mcp_tool_call_logs_get
        [{ id := 1, startedAt := 100, mcpToolName := "GITHUB__TOOL_A_X" }] 10 none
        (some "TOOL_A") = ([], none) ∧
      mcp_tool_call_logs_get
        [{ id := 1, startedAt := 100, mcpToolName := "GITHUB__TOOL_A_X" }] 10 none
        (some "GITHUB__TOOL_A_X") =
        ([{ id := 1, startedAt := 100, mcpToolName := "GITHUB__TOOL_A_X" }], none) := by
  refine ⟨?_, ?_, ?_⟩ <;> rfl

theorem rowGt_asymm {a b : MCPToolCallLog} (h : rowGtB a b = true) :
    ¬rowGtB b a = true := by
  simp only [rowGtB, Bool.or_eq_true, Bool.and_eq_true, decide_eq_true_eq] at h ⊢
  omega

theorem rowGt_irrefl (a : MCPToolCallLog) : rowGtB a a = false := by
  simp [rowGtB]

theorem rowGt_of_rowGe_of_key_ne {a b : MCPToolCallLog} (h1 : rowGeB a b = true)
    (h2 : logKey a ≠ logKey b) : rowGtB a b = true := by
  simp only [rowGeB, Bool.or_eq_true, Bool.and_eq_true, decide_eq_true_eq] at h1
  simp only [logKey, ne_eq, Prod.mk.injEq, not_and] at h2
  simp only [rowGtB, Bool.or_eq_true, Bool.and_eq_true, decide_eq_true_eq]
  by_cases hs : a.startedAt = b.startedAt
  · have := h2 hs
    omega
  · omega

theorem sortRowsDesc_perm (l : List MCPToolCallLog) : (sortRowsDesc l).Perm l :=
  List.perm_insertionSort _ l

theorem sortRowsDesc_sorted (l : List MCPToolCallLog) :
    List.Sorted (fun a b => rowGeB a b = true) (sortRowsDesc l) :=
  List.sorted_insertionSort _ l

theorem pairwise_gt_sortRowsDesc {l : List MCPToolCallLog}
    (h : (l.map logKey).Nodup) :
    List.Pairwise (fun a b => rowGtB a b = true) (sortRowsDesc l) := by
  have hperm : ((sortRowsDesc l).map logKey).Perm (l.map logKey) :=
    (sortRowsDesc_perm l).map logKey
  have hnd : ((sortRowsDesc l).map logKey).Nodup := hperm.nodup_iff.mpr h
  have hne : List.Pairwise (fun a b => logKey a ≠ logKey b) (sortRowsDesc l) :=
    List.pairwise_map.mp hnd
  have hsorted : List.Pairwise (fun a b => rowGeB a b = true) (sortRowsDesc l) :=
    sortRowsDesc_sorted l
  exact (hsorted.and hne).imp (fun h => rowGt_of_rowGe_of_key_ne h.1 h.2)

theorem eq_of_perm_of_pairwise {α : Type} {R : α → α → Prop}
    (hasymm : ∀ a b, R a b → ¬R b a) :
    ∀ {l₁ l₂ : List α}, l₁.Perm l₂ → l₁.Pairwise R → l₂.Pairwise R → l₁ = l₂ := by
  intro l₁
  induction l₁ with
  | nil =>
      intro l₂ hp _ _
      exact (hp.symm.eq_nil).symm
  | cons a t₁ ih =>
      intro l₂ hp h₁ h₂
      cases l₂ with
      | nil => exact absurd hp.eq_nil (by simp)
      | cons b t₂ =>
          by_cases hab : a = b
          · subst hab
            have htp : t₁.Perm t₂ := hp.cons_inv
            have := ih htp (List.pairwise_cons.mp h₁).2 (List.pairwise_cons.mp h₂).2
            rw [this]
          · have ha2 : a ∈ b :: t₂ := hp.subset (List.mem_cons_self a t₁)
            have ha2' : a ∈ t₂ := by
              rcases List.mem_cons.mp ha2 with h | h
              · exact absurd h hab
              · exact h
            have hb1 : b ∈ a :: t₁ := hp.symm.subset (List.mem_cons_self b t₂)
            have hb1' : b ∈ t₁ := by
              rcases List.mem_cons.mp hb1 with h | h
              · exact absurd h.symm hab
              · exact h
            have hRba : R b a := (List.pairwise_cons.mp h₂).1 a ha2'
            have hRab : R a b := (List.pairwise_cons.mp h₁).1 b hb1'
            exact absurd hRba (hasymm a b hRab)

theorem sortRowsDesc_filter_comm {l : List MCPToolCallLog} (p : MCPToolCallLog → Bool)
    (h : (l.map logKey).Nodup) :
    sortRowsDesc (l.filter p) = (sortRowsDesc l).filter p := by
  have hsub : ((l.filter p).map logKey).Sublist (l.map logKey) :=
    (List.filter_sublist l).map logKey
  have h1 : ((l.filter p).map logKey).Nodup := h.sublist hsub
  have hp1 := pairwise_gt_sortRowsDesc h1
  have hp2 : List.Pairwise (fun a b => rowGtB a b = true) ((sortRowsDesc l).filter p) :=
    (pairwise_gt_sortRowsDesc h).filter p
  have hperm : (sortRowsDesc (l.filter p)).Perm ((sortRowsDesc l).filter p) :=
    (sortRowsDesc_perm _).trans ((sortRowsDesc_perm l).filter p).symm
  exact eq_of_perm_of_pairwise (fun a b h => rowGt_asymm h) hperm hp1 hp2

theorem filter_gt_of_append {a : MCPToolCallLog} :
    ∀ {L₁ L₂ : List MCPToolCallLog},
      List.Pairwise (fun x y => rowGtB x y = true) (L₁ ++ a :: L₂) →
      (L₁ ++ a :: L₂).filter (fun x => rowGtB a x) = L₂ := by
  intro L₁
  induction L₁ with
  | nil =>
      intro L₂ h
      simp only [List.nil_append] at h ⊢
      rw [List.filter_cons]
      simp only [rowGt_irrefl a, Bool.false_eq_true, if_false]
      refine List.filter_eq_self.mpr (fun x hx => ?_)
      exact (List.pairwise_cons.mp h).1 x hx
  | cons b L₁' ih =>
      intro L₂ h
      simp only [List.cons_append] at h ⊢
      obtain ⟨hhead, htail⟩ := List.pairwise_cons.mp h
      have hba : rowGtB b a = true := hhead a (by simp)
      have hab : rowGtB a b = false := by
        cases hq : rowGtB a b with
        | false => rfl
        | true => exact absurd hba (rowGt_asymm hq)
      rw [List.filter_cons]
      simp only [hab, Bool.false_eq_true, if_false]
      exact ih htail

theorem matchesCursor_trans {cursor : Option MCPToolCallLogCursor}
    {m x : MCPToolCallLog} (h1 : rowGtB m x = true)
    (h2 : matchesCursor cursor m = true) : matchesCursor cursor x = true := by
  cases cursor with
  | none => rfl
  | some c =>
      simp only [matchesCursor, rowGtB, Bool.or_eq_true, Bool.and_eq_true,
        decide_eq_true_eq] at h1 h2 ⊢
      omega

theorem mcp_get_eq (db : List MCPToolCallLog) (limit : Nat)
    (cursor : Option MCPToolCallLogCursor) (name : Option String)
    (h : (db.map logKey).Nodup) :
    mcp_tool_call_logs_get db limit cursor name =
      (if limit < ((sortedMatchingRows db name).filter (matchesCursor cursor)).length then
        (((sortedMatchingRows db name).filter (matchesCursor cursor)).take limit,
          ((sortedMatchingRows db name).filter (matchesCursor cursor)).get? (limit - 1))
      else (((sortedMatchingRows db name).filter (matchesCursor cursor)), none)) := by
  have hnd1 : ((db.filter (matchesNameFilter name)).map logKey).Nodup :=
    h.sublist ((List.filter_sublist db).map logKey)
  have hcomm : sortRowsDesc ((db.filter (matchesNameFilter name)).filter
        (matchesCursor cursor)) =
      (sortedMatchingRows db name).filter (matchesCursor cursor) :=
    sortRowsDesc_filter_comm _ hnd1
  simp only [mcp_tool_call_logs_get, sortedMatchingRows] at hcomm ⊢
  rw [hcomm]
  by_cases hcase : limit <
      ((sortRowsDesc (db.filter (matchesNameFilter name))).filter
        (matchesCursor cursor)).length
  · have hlt : limit <
        (((sortRowsDesc (db.filter (matchesNameFilter name))).filter
          (matchesCursor cursor)).take (limit + 1)).length := by
      rw [List.length_take]
      omega
    rw [if_pos hlt, if_pos hcase]
    have h1 : (((sortRowsDesc (db.filter (matchesNameFilter name))).filter
          (matchesCursor cursor)).take (limit + 1)).take limit =
        ((sortRowsDesc (db.filter (matchesNameFilter name))).filter
          (matchesCursor cursor)).take limit := by
      rw [List.take_take]
      congr 1
      omega
    have h2 : (((sortRowsDesc (db.filter (matchesNameFilter name))).filter
          (matchesCursor cursor)).take (limit + 1)).get? (limit - 1) =
        ((sortRowsDesc (db.filter (matchesNameFilter name))).filter
          (matchesCursor cursor)).get? (limit - 1) :=
      List.get?_take (by omega)
    rw [h1, h2]
  · have hle : ((sortRowsDesc (db.filter (matchesNameFilter name))).filter
        (matchesCursor cursor)).length ≤ limit := Nat.le_of_not_lt hcase
    have htake : ((sortRowsDesc (db.filter (matchesNameFilter name))).filter
        (matchesCursor cursor)).take (limit + 1) =
        (sortRowsDesc (db.filter (matchesNameFilter name))).filter
          (matchesCursor cursor) :=
      List.take_all_of_le (by omega)
    rw [htake]

theorem get?_decomposition {M : List MCPToolCallLog} {i : Nat} (h : i < M.length) :
    ∃ m, M.get? i = some m ∧ M = M.take i ++ m :: M.drop (i + 1) := by
  have hget : M.get? i = some (M.get ⟨i, h⟩) := List.get?_eq_get h
  refine ⟨M.get ⟨i, h⟩, hget, ?_⟩
  conv_lhs => rw [← List.take_append_drop i M]
  congr 1
  exact List.drop_eq_get_cons h

theorem paginateAux_eq (db : List MCPToolCallLog) (limit : Nat) (name : Option String)
    (hnd : (db.map logKey).Nodup) (hlim : 1 ≤ limit) :
    ∀ (fuel : Nat) (cursor : Option MCPToolCallLogCursor),
      ((sortedMatchingRows db name).filter (matchesCursor cursor)).length + 1 ≤ fuel →
      paginateAux db limit name fuel cursor =
        (sortedMatchingRows db name).filter (matchesCursor cursor) := by
  have hnd1 : ((db.filter (matchesNameFilter name)).map logKey).Nodup :=
    hnd.sublist ((List.filter_sublist db).map logKey)
  have hpairLm : List.Pairwise (fun a b => rowGtB a b = true) (sortedMatchingRows db name) :=
    pairwise_gt_sortRowsDesc hnd1
  intro fuel
  induction fuel with
  | zero => intro cursor h; omega
  | succ fuel ih =>
      intro cursor hfuel
      have hget := mcp_get_eq db limit cursor name hnd
      by_cases hcase : limit <
          ((sortedMatchingRows db name).filter (matchesCursor cursor)).length
      · obtain ⟨m, hm, hdecomp0⟩ := get?_decomposition
          (M := (sortedMatchingRows db name).filter (matchesCursor cursor))
          (i := limit - 1) (by omega)
        have hidx : limit - 1 + 1 = limit := by omega
        rw [hidx] at hdecomp0
        have hgetval : mcp_tool_call_logs_get db limit cursor name =
            (((sortedMatchingRows db name).filter (matchesCursor cursor)).take limit,
              some m) := by
          rw [hget, if_pos hcase, hm]
        have hmemM : m ∈ (sortedMatchingRows db name).filter (matchesCursor cursor) := by
          rw [hdecomp0]
          exact List.mem_append_right _ (List.mem_cons_self _ _)
        have hcursorm : matchesCursor cursor m = true := List.of_mem_filter hmemM
        have hpairM : List.Pairwise (fun a b => rowGtB a b = true)
            ((sortedMatchingRows db name).filter (matchesCursor cursor)) :=
          hpairLm.filter _
        have hnext : (sortedMatchingRows db name).filter
              (matchesCursor (some (cursorOfRow m))) =
            ((sortedMatchingRows db name).filter (matchesCursor cursor)).drop limit := by
          have hcongr : (sortedMatchingRows db name).filter
                (matchesCursor (some (cursorOfRow m))) =
              (sortedMatchingRows db name).filter (fun x => rowGtB m x) :=
            List.filter_congr (fun x _ => rfl)
          have hpt : ∀ x ∈ sortedMatchingRows db name,
              rowGtB m x = (rowGtB m x && matchesCursor cursor x) := by
            intro x _
            cases hg : rowGtB m x with
            | false => rfl
            | true => rw [matchesCursor_trans hg hcursorm]; rfl
          have h1 : (sortedMatchingRows db name).filter (fun x => rowGtB m x) =
              ((sortedMatchingRows db name).filter (matchesCursor cursor)).filter
                (fun x => rowGtB m x) := by
            rw [List.filter_filter]
            exact List.filter_congr hpt
          rw [hcongr, h1]
          conv_lhs => rw [hdecomp0]
          exact filter_gt_of_append (hdecomp0 ▸ hpairM)
        have hstep : paginateAux db limit name (fuel + 1) cursor =
            ((sortedMatchingRows db name).filter (matchesCursor cursor)).take limit ++
              paginateAux db limit name fuel (some (cursorOfRow m)) := by
          show (match mcp_tool_call_logs_get db limit cursor name with
                | (page, none) => page
                | (page, some nextRow) =>
                    page ++ paginateAux db limit name fuel (some (cursorOfRow nextRow))) = _
          rw [hgetval]
        have hfuel' : ((sortedMatchingRows db name).filter
            (matchesCursor (some (cursorOfRow m)))).length + 1 ≤ fuel := by
          rw [hnext, List.length_drop]
          omega
        rw [hstep, ih (some (cursorOfRow m)) hfuel', hnext, List.take_append_drop]
      · have hgetval : mcp_tool_call_logs_get db limit cursor name =
            ((sortedMatchingRows db name).filter (matchesCursor cursor), none) := by
          rw [hget, if_neg hcase]
        show (match mcp_tool_call_logs_get db limit cursor name with
              | (page, none) => page
              | (page, some nextRow) =>
                  page ++ paginateAux db limit name fuel (some (cursorOfRow nextRow))) = _
        rw [hgetval]

/-- C3: for a table of rows with distinct ids and any `limit ≥ 1`, repeatedly
calling the paginated read and passing back each returned next cursor
enumerates every row matching the name filter exactly once, in
`(started_at DESC, id DESC)` order (conjuncts 1-3: the concatenation of the
pages equals the sorted matching rows, which are a permutation of the
filtered table and strictly descending); and on every call (conjunct 4) the
next cursor is null exactly when at most `limit` matching rows remain beyond
the cursor, while on overflow the call returns exactly `limit` rows and the
`limit`-th returned item as the next cursor; the cursor filter is strict
less-than on the composite `(started_at, id)` (definition `matchesCursor`). -/
theorem tool_call_log_pagination (db : List MCPToolCallLog) (limit : Nat)
    (mcpToolName : Option String) (hlim : 1 ≤ limit)
    (hids : (db.map (fun r => r.id)).Nodup) :
    paginate db limit mcpToolName = sortedMatchingRows db mcpToolName ∧
    (sortedMatchingRows db mcpToolName).Perm
      (db.filter (matchesNameFilter mcpToolName)) ∧
    List.Pairwise (fun a b => rowGtB a b = true) (sortedMatchingRows db mcpToolName) ∧
    ∀ cursor : Option MCPToolCallLogCursor,
      ((mcp_tool_call_logs_get db limit cursor mcpToolName).2 = none ↔
        ((sortedMatchingRows db mcpToolName).filter (matchesCursor cursor)).length ≤
          limit) ∧
      (limit <
          ((sortedMatchingRows db mcpToolName).filter (matchesCursor cursor)).length →
        (mcp_tool_call_logs_get db limit cursor mcpToolName).1.length = limit ∧
        (mcp_tool_call_logs_get db limit cursor mcpToolName).2 =
          (mcp_tool_call_logs_get db limit cursor mcpToolName).1.get? (limit - 1)) := by
  have hkeys : (db.map logKey).Nodup := by
    have hmm : (db.map logKey).map Prod.snd = db.map (fun r => r.id) := by
      rw [List.map_map]
      rfl
    refine List.Nodup.of_map Prod.snd ?_
    rw [hmm]
    exact hids
  have hnd1 : ((db.filter (matchesNameFilter mcpToolName)).map logKey).Nodup :=
    hkeys.sublist ((List.filter_sublist db).map logKey)
  refine ⟨?_, sortRowsDesc_perm _, pairwise_gt_sortRowsDesc hnd1, ?_⟩
  · have hfuel : ((sortedMatchingRows db mcpToolName).filter
        (matchesCursor none)).length + 1 ≤ db.length + 1 := by
      have hlen1 : (sortedMatchingRows db mcpToolName).length =
          (db.filter (matchesNameFilter mcpToolName)).length :=
        (sortRowsDesc_perm _).length_eq
      have hlen2 := List.length_filter_le (matchesCursor none)
        (sortedMatchingRows db mcpToolName)
      have hlen3 := List.length_filter_le (matchesNameFilter mcpToolName) db
      omega
    have h := paginateAux_eq db limit mcpToolName hkeys hlim (db.length + 1) none hfuel
    rw [paginate, h]
    exact List.filter_eq_self.mpr (fun x _ => rfl)
  · intro cursor
    have hget := mcp_get_eq db limit cursor mcpToolName hkeys
    by_cases hcase : limit <
        ((sortedMatchingRows db mcpToolName).filter (matchesCursor cursor)).length
    · constructor
      · rw [hget, if_pos hcase]
        simp only [List.get?_eq_none]
        constructor <;> omega
      · intro _
        rw [hget, if_pos hcase]
        constructor
        · rw [List.length_take]
          omega
        · exact (List.get?_take (by omega)).symm
    · constructor
      · rw [hget, if_neg hcase]
        simp only [true_iff, iff_true]
        · omega
      · intro h2
        exact absurd h2 hcase

/-- C3 witness: three rows with shuffled insertion order are enumerated by
pages of size 2 in `(started_at DESC, id DESC)` order. -/
theorem tool_call_log_pagination_witness :
    paginate
        [{ id := 1, startedAt := 100, mcpToolName := "A" },
         { id := 3, startedAt := 90, mcpToolName := "B" },
         { id := 2, startedAt := 100, mcpToolName := "A" }] 2 none =
      [{ id := 2, startedAt := 100, mcpToolName := "A" },
       { id := 1, startedAt := 100, mcpToolName := "A" },
       { id := 3, startedAt := 90, mcpToolName := "B" }] := by
  have h := tool_call_log_pagination
    [{ id := 1, startedAt := 100, mcpToolName := "A" },
     { id := 3, startedAt := 90, mcpToolName := "B" },
     { id := 2, startedAt := 100, mcpToolName := "A" }] 2 none (by decide) (by decide)
  rw [h.1]
  rfl

end Gate22
